import Mathlib

/-!
# Plugin event dispatch of dragonfly

A shallow embedding of `dragonfly/plugin.go` (the composite `Handler` built by
`MakePlugin` / `JoinPlugins`), of `dragonfly/player/handler.go` (the 22 single-method
handler interfaces and `NopHandler`) and of `plguins/example.go` (`CoordsPlugin`).

Pointers are modelled by explicit state passing: the storage a dispatch can reach is a
`Mem` (the `event.Context` behind `ctx`, the pointee of the pointer-typed payload
parameter, and the rest of the program state, the player behind `p` included).
By-value parameters are ordinary Lean values. Observers are arbitrary: the body of a
handler method is any finite program over the operations of the storage it is handed.
-/

namespace Dragonfly

/-! ## Types declared outside the given sources -/

/-- The Go type `float64`, kept as its IEEE-754 bit pattern. The dispatcher performs no
arithmetic on it; values are only passed along. -/
structure float64 where
  bits : Nat
deriving DecidableEq, Repr

/-- A Go slice value: the descriptor of a segment of an underlying array. The array
itself is part of the program state (`Types.World`), not of the value. -/
structure Slice where
  array : Nat
  len : Nat
  cap : Nat
deriving DecidableEq, Repr

/-- The types the handler signatures mention whose declarations are not part of the
given sources. They are parameters of the development. `World` is the program state
that is reachable from a handler apart from the context and the payload pointee: the
player behind `p`, the server, the fields of the observers. -/
structure Types where
  Vec3 : Type
  BlockPos : Type
  Block : Type
  Face : Type
  Entity : Type
  Stack : Type
  Item : Type
  UDPAddr : Type
  Command : Type
  DamageSource : Type
  HealingSource : Type
  World : Type

/-- Modelled from the spec: `event.Context`, whose source file is not among the given
sources. It holds one boolean flag, `canceled`, initially false. -/
structure Context where
  canceled : Bool
deriving DecidableEq, Repr

/-- Modelled from the spec: `Cancel()` sets `canceled = true`. -/
def Context.Cancel (ctx : Context) : Context :=
  { ctx with canceled := true }

/-- Modelled from the spec: `Canceled() -> bool` returns the current state. -/
def Context.Canceled (ctx : Context) : Bool :=
  ctx.canceled

/-! ## Observer bodies -/

/-- The storage one handler invocation can reach: `ctx` is the context behind the
`*event.Context` parameter, `slot` the pointee of the pointer-typed payload parameter
(`*string`, `*float64`, `*mgl64.Vec3`, ...; `Unit` when the event has none), `world`
everything else. -/
structure Mem (W S : Type) where
  ctx : Context
  slot : S
  world : W

/-- What an observer did to the context or the slot, in the order it did it. -/
inductive Effect (S : Type) where
  | cancel : Effect S
  | store : S → Effect S
deriving DecidableEq, Repr

/-- The body of one handler method of an observer, as a tree of the operations it can
perform on the storage it was handed. The index `c` tells whether the method has a
`ctx *event.Context` parameter; `cancel` and `canceled`, the two operations of the
context, exist only then.

* `ret`: return;
* `cancel k`: `ctx.Cancel()`, then `k`;
* `canceled k`: read `ctx.Canceled()`, continue with `k` of the answer;
* `load k`: read `*slot`;
* `store v k`: `*slot = v`;
* `get k`: read the rest of the program state;
* `modify f k`: change the rest of the program state by `f`.

A body is a finite tree, so it returns: an observer that panics or never returns is
not described by it. -/
inductive Body (W S : Type) : Bool → Type where
  | ret {c : Bool} : Body W S c
  | cancel : Body W S true → Body W S true
  | canceled : (Bool → Body W S true) → Body W S true
  | load {c : Bool} : (S → Body W S c) → Body W S c
  | store {c : Bool} : S → Body W S c → Body W S c
  | get {c : Bool} : (W → Body W S c) → Body W S c
  | modify {c : Bool} : (W → W) → Body W S c → Body W S c

/-- Runs a body on a memory; returns the memory it leaves and the effects it had on
the context and the slot, oldest first. -/
def Body.run {W S : Type} : {c : Bool} → Body W S c → Mem W S → Mem W S × List (Effect S)
  | _, .ret, m => (m, [])
  | _, .cancel k, m =>
    let r := k.run { m with ctx := m.ctx.Cancel }
    (r.1, Effect.cancel :: r.2)
  | _, .canceled k, m => (k m.ctx.Canceled).run m
  | _, .load k, m => (k m.slot).run m
  | _, .store v k, m =>
    let r := k.run { m with slot := v }
    (r.1, Effect.store v :: r.2)
  | _, .get k, m => (k m.world).run m
  | _, .modify f k, m => k.run { m with world := f m.world }

/-! ## Event kinds and handler signatures (`player/handler.go`) -/

/-- The 22 event kinds, one per handler interface, in the order of `player.Handler`. -/
inductive EventKind where
  | Move | Teleport | Chat | FoodLoss | Heal | Hurt | Death | Respawn
  | StartBreak | BlockBreak | BlockPlace | BlockPick
  | ItemUse | ItemUseOnBlock | ItemUseOnEntity | AttackEntity
  | ItemDamage | ItemPickup | ItemDrop | Transfer | CommandExecution | Quit
deriving DecidableEq, Repr

/-- Whether the handler method of the kind has a `ctx *event.Context` parameter. -/
def EventKind.hasCtx : EventKind → Bool
  | .Death => false
  | .Respawn => false
  | .Quit => false
  | _ => true

/-- The by-value payload parameters of the handler method of a kind, in the order of
its signature (after `p` and `ctx`). -/
def Input (X : Types) : EventKind → Type
  | .Move => X.Vec3 × float64 × float64
  | .Teleport => X.Vec3
  | .Chat => Unit
  | .FoodLoss => Int × Int
  | .Heal => X.HealingSource
  | .Hurt => X.DamageSource
  | .Death => X.DamageSource
  | .Respawn => Unit
  | .StartBreak => X.BlockPos
  | .BlockBreak => X.BlockPos
  | .BlockPlace => X.BlockPos × X.Block
  | .BlockPick => X.BlockPos × X.Block
  | .ItemUse => Unit
  | .ItemUseOnBlock => X.BlockPos × X.Face × X.Vec3
  | .ItemUseOnEntity => X.Entity
  | .AttackEntity => X.Entity
  | .ItemDamage => X.Stack × Int
  | .ItemPickup => X.Stack
  | .ItemDrop => Unit
  | .Transfer => Unit
  | .CommandExecution => X.Command × Slice
  | .Quit => Unit

/-- The pointee of the pointer-typed payload parameter of a kind: `message *string`,
`health *float64`, `damage *float64`, `pos *mgl64.Vec3`, `e *entity.Item`,
`addr *net.UDPAddr`; `Unit` for the kinds without one. -/
def Slot (X : Types) : EventKind → Type
  | .Chat => String
  | .Heal => float64
  | .Hurt => float64
  | .Respawn => X.Vec3
  | .ItemDrop => X.Item
  | .Transfer => X.UDPAddr
  | _ => Unit

/-- The type of a handler method of kind `K`: from its by-value parameters to a body
over the storage of that kind. -/
abbrev HandlerFn (X : Types) (K : EventKind) : Type :=
  Input X K → Body X.World (Slot X K) K.hasCtx

/-- An observer: a value of the `Plugin` interface (`Init`, `GetName`) whose dynamic
type may in addition have any of the 22 handler methods. A field is `some h` exactly
when the type assertion `plugin.(player.XHandler)` succeeds, and `h` is then the
method. -/
structure Plugin (X : Types) where
  Init : X.World → X.World
  GetName : String
  HandleMove : Option (HandlerFn X .Move) := none
  HandleTeleport : Option (HandlerFn X .Teleport) := none
  HandleChat : Option (HandlerFn X .Chat) := none
  HandleFoodLoss : Option (HandlerFn X .FoodLoss) := none
  HandleHeal : Option (HandlerFn X .Heal) := none
  HandleHurt : Option (HandlerFn X .Hurt) := none
  HandleDeath : Option (HandlerFn X .Death) := none
  HandleRespawn : Option (HandlerFn X .Respawn) := none
  HandleStartBreak : Option (HandlerFn X .StartBreak) := none
  HandleBlockBreak : Option (HandlerFn X .BlockBreak) := none
  HandleBlockPlace : Option (HandlerFn X .BlockPlace) := none
  HandleBlockPick : Option (HandlerFn X .BlockPick) := none
  HandleItemUse : Option (HandlerFn X .ItemUse) := none
  HandleItemUseOnBlock : Option (HandlerFn X .ItemUseOnBlock) := none
  HandleItemUseOnEntity : Option (HandlerFn X .ItemUseOnEntity) := none
  HandleAttackEntity : Option (HandlerFn X .AttackEntity) := none
  HandleItemDamage : Option (HandlerFn X .ItemDamage) := none
  HandleItemPickup : Option (HandlerFn X .ItemPickup) := none
  HandleItemDrop : Option (HandlerFn X .ItemDrop) := none
  HandleTransfer : Option (HandlerFn X .Transfer) := none
  HandleCommandExecution : Option (HandlerFn X .CommandExecution) := none
  HandleQuit : Option (HandlerFn X .Quit) := none

/-- The handler method of kind `K` of an observer, if its type has one. -/
def Plugin.handler {X : Types} (plugin : Plugin X) : (K : EventKind) → Option (HandlerFn X K)
  | .Move => plugin.HandleMove
  | .Teleport => plugin.HandleTeleport
  | .Chat => plugin.HandleChat
  | .FoodLoss => plugin.HandleFoodLoss
  | .Heal => plugin.HandleHeal
  | .Hurt => plugin.HandleHurt
  | .Death => plugin.HandleDeath
  | .Respawn => plugin.HandleRespawn
  | .StartBreak => plugin.HandleStartBreak
  | .BlockBreak => plugin.HandleBlockBreak
  | .BlockPlace => plugin.HandleBlockPlace
  | .BlockPick => plugin.HandleBlockPick
  | .ItemUse => plugin.HandleItemUse
  | .ItemUseOnBlock => plugin.HandleItemUseOnBlock
  | .ItemUseOnEntity => plugin.HandleItemUseOnEntity
  | .AttackEntity => plugin.HandleAttackEntity
  | .ItemDamage => plugin.HandleItemDamage
  | .ItemPickup => plugin.HandleItemPickup
  | .ItemDrop => plugin.HandleItemDrop
  | .Transfer => plugin.HandleTransfer
  | .CommandExecution => plugin.HandleCommandExecution
  | .Quit => plugin.HandleQuit

/-- Whether an observer implements the capability of kind `K`. -/
def Plugin.implements {X : Types} (plugin : Plugin X) (K : EventKind) : Bool :=
  (plugin.handler K).isSome

/-! ## The composite handler (`plugin.go`)

Each method of `Handler` has the signature of the source method without `p` and `ctx`:
these two are pointers, and what they point to is in the `mem` of the state (`p` in
`world`, `ctx` in `ctx`). A pointer-typed payload parameter is likewise left out; its
pointee is the `slot` of the state. -/

/-- The record of one observer invocation: the position of the observer in the
registry, the by-value arguments it received, the storage as it found it, its effects
on the context and the slot, and the storage as it left it. The records are
bookkeeping of the model; the dispatcher never reads them. -/
structure Call (X : Types) (K : EventKind) where
  index : Nat
  input : Input X K
  memIn : Mem X.World (Slot X K)
  effects : List (Effect (Slot X K))
  memOut : Mem X.World (Slot X K)

/-- The state of a dispatch of kind `K`: the storage, and the invocations so far. -/
structure State (X : Types) (K : EventKind) where
  mem : Mem X.World (Slot X K)
  calls : List (Call X K)

/-- The state at the start of a dispatch: the storage of the caller, nothing invoked. -/
def State.init {X : Types} {K : EventKind} (m : Mem X.World (Slot X K)) : State X K :=
  { mem := m, calls := [] }

/-- The call `h.HandleK(p, ctx, a...)` of the handler method `h` of the observer at
position `i`: runs the body of `h` at the arguments `a` on the storage, and records
the invocation. -/
def State.call {X : Types} {K : EventKind} (s : State X K) (i : Nat) (h : HandlerFn X K)
    (a : Input X K) : State X K :=
  let r := (h a).run s.mem
  { mem := r.1
    calls := s.calls ++ [{
      index := i
      input := a
      memIn := s.mem
      effects := r.2
      memOut := r.1 }] }

/-- The type `Handler struct { plugins []Plugin }`. -/
structure Handler (X : Types) where
  plugins : List (Plugin X)

/-- The function `MakePlugin`. -/
def MakePlugin {X : Types} (plugin : Plugin X) : Handler X :=
  { plugins := [plugin] }

/-- The function `JoinPlugins`. -/
def JoinPlugins {X : Types} (plugins : List (Plugin X)) : Handler X :=
  { plugins := plugins }

/-- `Handler.HandleMove` of `plugin.go`: ranges over the plugins and calls `HandleMove` on
each one whose type has it. -/
def Handler.HandleMove {X : Types} (handler : Handler X)
    (newPos : X.Vec3) (newYaw : float64) (newPitch : float64) (s : State X .Move) :
    State X .Move :=
  handler.plugins.enum.foldl (fun s ip =>
    match ip.2.HandleMove with
    | some h => s.call ip.1 h (newPos, newYaw, newPitch)
    | none => s) s

/-- `Handler.HandleTeleport` of `plugin.go`: ranges over the plugins and calls
`HandleTeleport` on each one whose type has it. -/
def Handler.HandleTeleport {X : Types} (handler : Handler X)
    (pos : X.Vec3) (s : State X .Teleport) :
    State X .Teleport :=
  handler.plugins.enum.foldl (fun s ip =>
    match ip.2.HandleTeleport with
    | some h => s.call ip.1 h pos
    | none => s) s

/-- `Handler.HandleChat` of `plugin.go`: ranges over the plugins and calls `HandleChat` on
each one whose type has it. The pointee of `message *string` is `s.mem.slot`. -/
def Handler.HandleChat {X : Types} (handler : Handler X) (s : State X .Chat) :
    State X .Chat :=
  handler.plugins.enum.foldl (fun s ip =>
    match ip.2.HandleChat with
    | some h => s.call ip.1 h ()
    | none => s) s

/-- `Handler.HandleFoodLoss` of `plugin.go`: ranges over the plugins and calls
`HandleFoodLoss` on each one whose type has it. -/
def Handler.HandleFoodLoss {X : Types} (handler : Handler X)
    (from_ : Int) (to_ : Int) (s : State X .FoodLoss) :
    State X .FoodLoss :=
  handler.plugins.enum.foldl (fun s ip =>
    match ip.2.HandleFoodLoss with
    | some h => s.call ip.1 h (from_, to_)
    | none => s) s

/-- `Handler.HandleHeal` of `plugin.go`: ranges over the plugins and calls `HandleHeal` on
each one whose type has it. The pointee of `health *float64` is `s.mem.slot`. -/
def Handler.HandleHeal {X : Types} (handler : Handler X)
    (src : X.HealingSource) (s : State X .Heal) :
    State X .Heal :=
  handler.plugins.enum.foldl (fun s ip =>
    match ip.2.HandleHeal with
    | some h => s.call ip.1 h src
    | none => s) s

/-- `Handler.HandleHurt` of `plugin.go`: ranges over the plugins and calls `HandleHurt` on
each one whose type has it. The pointee of `damage *float64` is `s.mem.slot`. -/
def Handler.HandleHurt {X : Types} (handler : Handler X)
    (src : X.DamageSource) (s : State X .Hurt) :
    State X .Hurt :=
  handler.plugins.enum.foldl (fun s ip =>
    match ip.2.HandleHurt with
    | some h => s.call ip.1 h src
    | none => s) s

/-- `Handler.HandleDeath` of `plugin.go`: ranges over the plugins and calls `HandleDeath` on
each one whose type has it. -/
def Handler.HandleDeath {X : Types} (handler : Handler X)
    (src : X.DamageSource) (s : State X .Death) :
    State X .Death :=
  handler.plugins.enum.foldl (fun s ip =>
    match ip.2.HandleDeath with
    | some h => s.call ip.1 h src
    | none => s) s

/-- `Handler.HandleRespawn` of `plugin.go`: ranges over the plugins and calls `HandleRespawn`
on each one whose type has it. The pointee of `pos *mgl64.Vec3` is `s.mem.slot`. -/
def Handler.HandleRespawn {X : Types} (handler : Handler X) (s : State X .Respawn) :
    State X .Respawn :=
  handler.plugins.enum.foldl (fun s ip =>
    match ip.2.HandleRespawn with
    | some h => s.call ip.1 h ()
    | none => s) s

/-- `Handler.HandleStartBreak` of `plugin.go`: ranges over the plugins and calls
`HandleStartBreak` on each one whose type has it. -/
def Handler.HandleStartBreak {X : Types} (handler : Handler X)
    (pos : X.BlockPos) (s : State X .StartBreak) :
    State X .StartBreak :=
  handler.plugins.enum.foldl (fun s ip =>
    match ip.2.HandleStartBreak with
    | some h => s.call ip.1 h pos
    | none => s) s

/-- `Handler.HandleBlockBreak` of `plugin.go`: ranges over the plugins and calls
`HandleBlockBreak` on each one whose type has it. -/
def Handler.HandleBlockBreak {X : Types} (handler : Handler X)
    (pos : X.BlockPos) (s : State X .BlockBreak) :
    State X .BlockBreak :=
  handler.plugins.enum.foldl (fun s ip =>
    match ip.2.HandleBlockBreak with
    | some h => s.call ip.1 h pos
    | none => s) s

/-- `Handler.HandleBlockPlace` of `plugin.go`: ranges over the plugins and calls
`HandleBlockPlace` on each one whose type has it. -/
def Handler.HandleBlockPlace {X : Types} (handler : Handler X)
    (pos : X.BlockPos) (b : X.Block) (s : State X .BlockPlace) :
    State X .BlockPlace :=
  handler.plugins.enum.foldl (fun s ip =>
    match ip.2.HandleBlockPlace with
    | some h => s.call ip.1 h (pos, b)
    | none => s) s

/-- `Handler.HandleBlockPick` of `plugin.go`: ranges over the plugins and calls
`HandleBlockPick` on each one whose type has it. -/
def Handler.HandleBlockPick {X : Types} (handler : Handler X)
    (pos : X.BlockPos) (b : X.Block) (s : State X .BlockPick) :
    State X .BlockPick :=
  handler.plugins.enum.foldl (fun s ip =>
    match ip.2.HandleBlockPick with
    | some h => s.call ip.1 h (pos, b)
    | none => s) s

/-- `Handler.HandleItemUse` of `plugin.go`: ranges over the plugins and calls `HandleItemUse`
on each one whose type has it. -/
def Handler.HandleItemUse {X : Types} (handler : Handler X) (s : State X .ItemUse) :
    State X .ItemUse :=
  handler.plugins.enum.foldl (fun s ip =>
    match ip.2.HandleItemUse with
    | some h => s.call ip.1 h ()
    | none => s) s

/-- `Handler.HandleItemUseOnBlock` of `plugin.go`: ranges over the plugins and calls
`HandleItemUseOnBlock` on each one whose type has it. -/
def Handler.HandleItemUseOnBlock {X : Types} (handler : Handler X)
    (pos : X.BlockPos) (face : X.Face) (clickPos : X.Vec3) (s : State X .ItemUseOnBlock) :
    State X .ItemUseOnBlock :=
  handler.plugins.enum.foldl (fun s ip =>
    match ip.2.HandleItemUseOnBlock with
    | some h => s.call ip.1 h (pos, face, clickPos)
    | none => s) s

/-- `Handler.HandleItemUseOnEntity` of `plugin.go`: ranges over the plugins and calls
`HandleItemUseOnEntity` on each one whose type has it. -/
def Handler.HandleItemUseOnEntity {X : Types} (handler : Handler X)
    (e : X.Entity) (s : State X .ItemUseOnEntity) :
    State X .ItemUseOnEntity :=
  handler.plugins.enum.foldl (fun s ip =>
    match ip.2.HandleItemUseOnEntity with
    | some h => s.call ip.1 h e
    | none => s) s

/-- `Handler.HandleAttackEntity` of `plugin.go`: ranges over the plugins and calls
`HandleAttackEntity` on each one whose type has it. -/
def Handler.HandleAttackEntity {X : Types} (handler : Handler X)
    (e : X.Entity) (s : State X .AttackEntity) :
    State X .AttackEntity :=
  handler.plugins.enum.foldl (fun s ip =>
    match ip.2.HandleAttackEntity with
    | some h => s.call ip.1 h e
    | none => s) s

/-- `Handler.HandleItemDamage` of `plugin.go`: ranges over the plugins and calls
`HandleItemDamage` on each one whose type has it. -/
def Handler.HandleItemDamage {X : Types} (handler : Handler X)
    (i : X.Stack) (damage : Int) (s : State X .ItemDamage) :
    State X .ItemDamage :=
  handler.plugins.enum.foldl (fun s ip =>
    match ip.2.HandleItemDamage with
    | some h => s.call ip.1 h (i, damage)
    | none => s) s

/-- `Handler.HandleItemPickup` of `plugin.go`: ranges over the plugins and calls
`HandleItemPickup` on each one whose type has it. -/
def Handler.HandleItemPickup {X : Types} (handler : Handler X)
    (i : X.Stack) (s : State X .ItemPickup) :
    State X .ItemPickup :=
  handler.plugins.enum.foldl (fun s ip =>
    match ip.2.HandleItemPickup with
    | some h => s.call ip.1 h i
    | none => s) s

/-- `Handler.HandleItemDrop` of `plugin.go`: ranges over the plugins and calls
`HandleItemDrop` on each one whose type has it. The pointee of `e *entity.Item` is `s.mem.slot`. -/
def Handler.HandleItemDrop {X : Types} (handler : Handler X) (s : State X .ItemDrop) :
    State X .ItemDrop :=
  handler.plugins.enum.foldl (fun s ip =>
    match ip.2.HandleItemDrop with
    | some h => s.call ip.1 h ()
    | none => s) s

/-- `Handler.HandleTransfer` of `plugin.go`: ranges over the plugins and calls
`HandleTransfer` on each one whose type has it. The pointee of `addr *net.UDPAddr` is
`s.mem.slot`. -/
def Handler.HandleTransfer {X : Types} (handler : Handler X) (s : State X .Transfer) :
    State X .Transfer :=
  handler.plugins.enum.foldl (fun s ip =>
    match ip.2.HandleTransfer with
    | some h => s.call ip.1 h ()
    | none => s) s

/-- `Handler.HandleCommandExecution` of `plugin.go`: ranges over the plugins and calls
`HandleCommandExecution` on each one whose type has it. -/
def Handler.HandleCommandExecution {X : Types} (handler : Handler X)
    (command : X.Command) (args : Slice) (s : State X .CommandExecution) :
    State X .CommandExecution :=
  handler.plugins.enum.foldl (fun s ip =>
    match ip.2.HandleCommandExecution with
    | some h => s.call ip.1 h (command, args)
    | none => s) s

/-- `Handler.HandleQuit` of `plugin.go`: ranges over the plugins and calls `HandleQuit` on
each one whose type has it. -/
def Handler.HandleQuit {X : Types} (handler : Handler X) (s : State X .Quit) :
    State X .Quit :=
  handler.plugins.enum.foldl (fun s ip =>
    match ip.2.HandleQuit with
    | some h => s.call ip.1 h ()
    | none => s) s

/-- The method of the composite handler for kind `K`, applied to the by-value payload. -/
def Handler.dispatch {X : Types} (handler : Handler X) :
    (K : EventKind) → Input X K → State X K → State X K
  | .Move, a, s => handler.HandleMove a.1 a.2.1 a.2.2 s
  | .Teleport, a, s => handler.HandleTeleport a s
  | .Chat, _, s => handler.HandleChat s
  | .FoodLoss, a, s => handler.HandleFoodLoss a.1 a.2 s
  | .Heal, a, s => handler.HandleHeal a s
  | .Hurt, a, s => handler.HandleHurt a s
  | .Death, a, s => handler.HandleDeath a s
  | .Respawn, _, s => handler.HandleRespawn s
  | .StartBreak, a, s => handler.HandleStartBreak a s
  | .BlockBreak, a, s => handler.HandleBlockBreak a s
  | .BlockPlace, a, s => handler.HandleBlockPlace a.1 a.2 s
  | .BlockPick, a, s => handler.HandleBlockPick a.1 a.2 s
  | .ItemUse, _, s => handler.HandleItemUse s
  | .ItemUseOnBlock, a, s => handler.HandleItemUseOnBlock a.1 a.2.1 a.2.2 s
  | .ItemUseOnEntity, a, s => handler.HandleItemUseOnEntity a s
  | .AttackEntity, a, s => handler.HandleAttackEntity a s
  | .ItemDamage, a, s => handler.HandleItemDamage a.1 a.2 s
  | .ItemPickup, a, s => handler.HandleItemPickup a s
  | .ItemDrop, _, s => handler.HandleItemDrop s
  | .Transfer, _, s => handler.HandleTransfer s
  | .CommandExecution, a, s => handler.HandleCommandExecution a.1 a.2 s
  | .Quit, _, s => handler.HandleQuit s

/-! ## `NopHandler` (`player/handler.go`) -/

/-- The type `NopHandler struct{}`. -/
structure NopHandler where

/-- `NopHandler.HandleMove`: the body is empty. -/
def NopHandler.HandleMove {X : Types} (_ : NopHandler)
    (_ : X.Vec3) (_ : float64) (_ : float64) (s : State X .Move) :
    State X .Move :=
  s

/-- `NopHandler.HandleTeleport`: the body is empty. -/
def NopHandler.HandleTeleport {X : Types} (_ : NopHandler) (_ : X.Vec3) (s : State X .Teleport) :
    State X .Teleport :=
  s

/-- `NopHandler.HandleChat`: the body is empty. -/
def NopHandler.HandleChat {X : Types} (_ : NopHandler) (s : State X .Chat) :
    State X .Chat :=
  s

/-- `NopHandler.HandleFoodLoss`: the body is empty. -/
def NopHandler.HandleFoodLoss {X : Types} (_ : NopHandler)
    (_ : Int) (_ : Int) (s : State X .FoodLoss) :
    State X .FoodLoss :=
  s

/-- `NopHandler.HandleHeal`: the body is empty. -/
def NopHandler.HandleHeal {X : Types} (_ : NopHandler) (_ : X.HealingSource) (s : State X .Heal) :
    State X .Heal :=
  s

/-- `NopHandler.HandleHurt`: the body is empty. -/
def NopHandler.HandleHurt {X : Types} (_ : NopHandler) (_ : X.DamageSource) (s : State X .Hurt) :
    State X .Hurt :=
  s

/-- `NopHandler.HandleDeath`: the body is empty. -/
def NopHandler.HandleDeath {X : Types} (_ : NopHandler) (_ : X.DamageSource) (s : State X .Death) :
    State X .Death :=
  s

/-- `NopHandler.HandleRespawn`: the body is empty. -/
def NopHandler.HandleRespawn {X : Types} (_ : NopHandler) (s : State X .Respawn) :
    State X .Respawn :=
  s

/-- `NopHandler.HandleStartBreak`: the body is empty. -/
def NopHandler.HandleStartBreak {X : Types} (_ : NopHandler)
    (_ : X.BlockPos) (s : State X .StartBreak) :
    State X .StartBreak :=
  s

/-- `NopHandler.HandleBlockBreak`: the body is empty. -/
def NopHandler.HandleBlockBreak {X : Types} (_ : NopHandler)
    (_ : X.BlockPos) (s : State X .BlockBreak) :
    State X .BlockBreak :=
  s

/-- `NopHandler.HandleBlockPlace`: the body is empty. -/
def NopHandler.HandleBlockPlace {X : Types} (_ : NopHandler)
    (_ : X.BlockPos) (_ : X.Block) (s : State X .BlockPlace) :
    State X .BlockPlace :=
  s

/-- `NopHandler.HandleBlockPick`: the body is empty. -/
def NopHandler.HandleBlockPick {X : Types} (_ : NopHandler)
    (_ : X.BlockPos) (_ : X.Block) (s : State X .BlockPick) :
    State X .BlockPick :=
  s

/-- `NopHandler.HandleItemUse`: the body is empty. -/
def NopHandler.HandleItemUse {X : Types} (_ : NopHandler) (s : State X .ItemUse) :
    State X .ItemUse :=
  s

/-- `NopHandler.HandleItemUseOnBlock`: the body is empty. -/
def NopHandler.HandleItemUseOnBlock {X : Types} (_ : NopHandler)
    (_ : X.BlockPos) (_ : X.Face) (_ : X.Vec3) (s : State X .ItemUseOnBlock) :
    State X .ItemUseOnBlock :=
  s

/-- `NopHandler.HandleItemUseOnEntity`: the body is empty. -/
def NopHandler.HandleItemUseOnEntity {X : Types} (_ : NopHandler)
    (_ : X.Entity) (s : State X .ItemUseOnEntity) :
    State X .ItemUseOnEntity :=
  s

/-- `NopHandler.HandleAttackEntity`: the body is empty. -/
def NopHandler.HandleAttackEntity {X : Types} (_ : NopHandler)
    (_ : X.Entity) (s : State X .AttackEntity) :
    State X .AttackEntity :=
  s

/-- `NopHandler.HandleItemDamage`: the body is empty. -/
def NopHandler.HandleItemDamage {X : Types} (_ : NopHandler)
    (_ : X.Stack) (_ : Int) (s : State X .ItemDamage) :
    State X .ItemDamage :=
  s

/-- `NopHandler.HandleItemPickup`: the body is empty. -/
def NopHandler.HandleItemPickup {X : Types} (_ : NopHandler)
    (_ : X.Stack) (s : State X .ItemPickup) :
    State X .ItemPickup :=
  s

/-- `NopHandler.HandleItemDrop`: the body is empty. -/
def NopHandler.HandleItemDrop {X : Types} (_ : NopHandler) (s : State X .ItemDrop) :
    State X .ItemDrop :=
  s

/-- `NopHandler.HandleTransfer`: the body is empty. -/
def NopHandler.HandleTransfer {X : Types} (_ : NopHandler) (s : State X .Transfer) :
    State X .Transfer :=
  s

/-- `NopHandler.HandleCommandExecution`: the body is empty. -/
def NopHandler.HandleCommandExecution {X : Types} (_ : NopHandler)
    (_ : X.Command) (_ : Slice) (s : State X .CommandExecution) :
    State X .CommandExecution :=
  s

/-- `NopHandler.HandleQuit`: the body is empty. -/
def NopHandler.HandleQuit {X : Types} (_ : NopHandler) (s : State X .Quit) :
    State X .Quit :=
  s

/-- The method of `NopHandler` for kind `K`, applied to the by-value payload. -/
def NopHandler.dispatch {X : Types} (nop : NopHandler) :
    (K : EventKind) → Input X K → State X K → State X K
  | .Move, a, s => nop.HandleMove a.1 a.2.1 a.2.2 s
  | .Teleport, a, s => nop.HandleTeleport a s
  | .Chat, _, s => nop.HandleChat s
  | .FoodLoss, a, s => nop.HandleFoodLoss a.1 a.2 s
  | .Heal, a, s => nop.HandleHeal a s
  | .Hurt, a, s => nop.HandleHurt a s
  | .Death, a, s => nop.HandleDeath a s
  | .Respawn, _, s => nop.HandleRespawn s
  | .StartBreak, a, s => nop.HandleStartBreak a s
  | .BlockBreak, a, s => nop.HandleBlockBreak a s
  | .BlockPlace, a, s => nop.HandleBlockPlace a.1 a.2 s
  | .BlockPick, a, s => nop.HandleBlockPick a.1 a.2 s
  | .ItemUse, _, s => nop.HandleItemUse s
  | .ItemUseOnBlock, a, s => nop.HandleItemUseOnBlock a.1 a.2.1 a.2.2 s
  | .ItemUseOnEntity, a, s => nop.HandleItemUseOnEntity a s
  | .AttackEntity, a, s => nop.HandleAttackEntity a s
  | .ItemDamage, a, s => nop.HandleItemDamage a.1 a.2 s
  | .ItemPickup, a, s => nop.HandleItemPickup a s
  | .ItemDrop, _, s => nop.HandleItemDrop s
  | .Transfer, _, s => nop.HandleTransfer s
  | .CommandExecution, a, s => nop.HandleCommandExecution a.1 a.2 s
  | .Quit, _, s => nop.HandleQuit s

/-! ## The loop shared by the 22 methods -/

/-- The loop of the 22 methods, written once for a kind `K`: `n` is the position of
the head of the remaining plugins. -/
def fanout {X : Types} (K : EventKind) (a : Input X K) :
    Nat → List (Plugin X) → State X K → State X K
  | _, [], s => s
  | n, plugin :: rest, s =>
    fanout K a (n + 1) rest
      (match plugin.handler K with
       | some h => s.call n h a
       | none => s)

/-! ## Reading the records -/

/-- Whether an effect is a call of `ctx.Cancel()`. -/
def Effect.isCancel {S : Type} : Effect S → Bool
  | .cancel => true
  | .store _ => false

/-- The value an effect stored in the slot, if it is a store. -/
def Effect.stored {S : Type} : Effect S → Option S
  | .cancel => none
  | .store v => some v

/-- What `ctx.Canceled()` answered when the invocation began. -/
def Call.canceledIn {X : Types} {K : EventKind} (c : Call X K) : Bool :=
  c.memIn.ctx.Canceled

/-- What `ctx.Canceled()` answers when the invocation has returned. -/
def Call.canceledOut {X : Types} {K : EventKind} (c : Call X K) : Bool :=
  c.memOut.ctx.Canceled

/-- The slot value the observer received. -/
def Call.slotIn {X : Types} {K : EventKind} (c : Call X K) : Slot X K :=
  c.memIn.slot

/-- The slot value the observer left. -/
def Call.slotOut {X : Types} {K : EventKind} (c : Call X K) : Slot X K :=
  c.memOut.slot

/-- Whether the observer called `ctx.Cancel()` during the invocation. -/
def Call.cancels {X : Types} {K : EventKind} (c : Call X K) : Bool :=
  c.effects.any Effect.isCancel

/-- The values the observer wrote to the slot during the invocation, oldest first. -/
def Call.stores {X : Types} {K : EventKind} (c : Call X K) : List (Slot X K) :=
  c.effects.filterMap Effect.stored

/-- The positions of the observers of a registry that implement `K`, in registry
order. -/
def capable {X : Types} (R : List (Plugin X)) (K : EventKind) : List Nat :=
  (R.enum.filter (fun ip => ip.2.implements K)).map Prod.fst

/-- The record `c` is an invocation of the handler method of kind `K` of the observer
at its position in `R`: the storage it left and its effects are those of running the
body of that method, at the recorded arguments, on the storage it found. -/
def Call.Of {X : Types} {K : EventKind} (R : List (Plugin X)) (c : Call X K) : Prop :=
  ∃ (plugin : Plugin X) (h : HandlerFn X K), R[c.index]? = some plugin ∧
    plugin.handler K = some h ∧ (h c.input).run c.memIn = (c.memOut, c.effects)

/-- The invocations `cs` are threaded from storage `m` to storage `m1`: the first one
found `m`, each next one found what the one before it left, and the last one left
`m1`. -/
def Threaded {X : Types} {K : EventKind} :
    Mem X.World (Slot X K) → List (Call X K) → Mem X.World (Slot X K) → Prop
  | m, [], m1 => m = m1
  | m, c :: cs, m1 => c.memIn = m ∧ Threaded c.memOut cs m1

/-! ## Observers and values of the scenarios -/

/-- The `float64` value `5.0`. -/
def float64.five : float64 :=
  { bits := 0x4014000000000000 }

/-- The `float64` value `0.0`. -/
def float64.zero : float64 :=
  { bits := 0 }

/-- A concrete choice of the type parameters, for the scenarios. -/
def Types.demo : Types where
  Vec3 := float64 × float64 × float64
  BlockPos := Int × Int × Int
  Block := Nat
  Face := Int
  Entity := Nat
  Stack := Nat
  Item := Nat
  UDPAddr := String
  Command := String
  DamageSource := Nat
  HealingSource := Nat
  World := Nat

/-- An observer that implements Chat only: `*message = "[filtered]"`. -/
def ObsX (X : Types) : Plugin X where
  Init := id
  GetName := "ObsX"
  HandleChat := some (fun _ => Body.store (S := String) "[filtered]" Body.ret)

/-- An observer that implements Chat only: `ctx.Cancel()`. -/
def ObsY (X : Types) : Plugin X where
  Init := id
  GetName := "ObsY"
  HandleChat := some (fun _ => Body.cancel Body.ret)

/-- An observer that implements Heal only: `*health = 0.0` and `ctx.Cancel()`. -/
def ObsZ (X : Types) : Plugin X where
  Init := id
  GetName := "ObsZ"
  HandleHeal := some (fun _ => Body.store (S := float64) float64.zero (Body.cancel Body.ret))

/-- The storage of the caller of the scenarios: context not canceled, slot `v`. -/
def Mem.fresh {W S : Type} (v : S) (w : W) : Mem W S :=
  { ctx := { canceled := false }, slot := v, world := w }

/-- An observer that implements Quit only: changes the program state by `f`. -/
def ObsA (X : Types) (f : X.World → X.World) : Plugin X where
  Init := id
  GetName := "ObsA"
  HandleQuit := some (fun _ => Body.modify f Body.ret)

/-- A second observer that implements Quit only: changes the program state by `g`. -/
def ObsB (X : Types) (g : X.World → X.World) : Plugin X where
  Init := id
  GetName := "ObsB"
  HandleQuit := some (fun _ => Body.modify g Body.ret)

/-- An observer that implements BlockPick only: `ctx.Cancel()`. -/
def ObsPick (X : Types) : Plugin X where
  Init := id
  GetName := "ObsPick"
  HandleBlockPick := some (fun _ => Body.cancel Body.ret)

/-- An observer that implements BlockPlace only: `ctx.Cancel()`. -/
def ObsPlace (X : Types) : Plugin X where
  Init := id
  GetName := "ObsPlace"
  HandleBlockPlace := some (fun _ => Body.cancel Body.ret)

/-- An observer that implements Transfer only: `*addr = v`. -/
def ObsT (X : Types) (v : X.UDPAddr) : Plugin X where
  Init := id
  GetName := "ObsT"
  HandleTransfer := some (fun _ => Body.store (S := X.UDPAddr) v Body.ret)

/-- The storage of a later dispatch of a kind without payload pointer: the context and
the program state are those an earlier dispatch left. -/
def Mem.next {W S : Type} (m : Mem W S) : Mem W Unit :=
  { ctx := m.ctx, slot := (), world := m.world }

/-- The record `c` with the context of the storage it found and left replaced. -/
def Call.withCtx {X : Types} {K : EventKind} (ctx : Context) (c : Call X K) : Call X K :=
  { c with memIn := { c.memIn with ctx := ctx }, memOut := { c.memOut with ctx := ctx } }

/-- The record `c` with its position moved up by `k`. -/
def Call.shift {X : Types} {K : EventKind} (k : Nat) (c : Call X K) : Call X K :=
  { c with index := c.index + k }

/-! ## The example plugin (`plguins/example.go`) -/

/-- The nil slice. -/
def Slice.nil : Slice :=
  { array := 0, len := 0, cap := 0 }

/-- The functions of the packages `cmd` and `player` that the example plugin calls.
Their declarations are not part of the given sources; they are parameters:
`Name` is `cmd.Command.Name()`, `New` is `cmd.New(name, description, aliases)`,
`Register` is `cmd.Register(command)` acting on the program state, and
`ShowCoordinates` is `p.ShowCoordinates()` acting on the program state. -/
structure Deps (X : Types) where
  Name : X.Command → String
  New : String → String → Slice → X.Command
  Register : X.Command → X.World → X.World
  ShowCoordinates : X.World → X.World

/-- The type `CoordsPlugin struct{}` with its three methods `HandleCommandExecution`,
`Init` and `GetName`. -/
def CoordsPlugin {X : Types} (D : Deps X) : Plugin X where
  Init := fun server => D.Register (D.New "coords" "View your coordinates" Slice.nil) server
  GetName := "Coords v0.0.1"
  HandleCommandExecution := some (fun ((command, _) : X.Command × Slice) =>
    if D.Name command = "coords" then Body.modify D.ShowCoordinates Body.ret else Body.ret)

/-- A concrete choice of the functions of `Deps` over `Types.demo`: a command is its
name, and showing the coordinates counts up the program state. -/
def Deps.demo : Deps Types.demo where
  Name := fun command => command
  New := fun name _ _ => name
  Register := fun _ server => server
  ShowCoordinates := fun (w : Nat) => w + 1

/-! ## The elements of a slice of strings -/

/-- How the elements of a `[]string` are read off the program state: `elems w s` is
the contents `s[0], ..., s[len-1]` of the slice value `s` in the state `w`. The layout
of the program state is not part of the given sources, so it is a parameter. -/
structure Arrays (X : Types) where
  elems : X.World → Slice → List String

/-- A choice of the type parameters in which the program state is the arrays of strings
of the program: the array numbered `n` is the `n`-th list. -/
def Types.heap : Types where
  Vec3 := float64 × float64 × float64
  BlockPos := Int × Int × Int
  Block := Nat
  Face := Int
  Entity := Nat
  Stack := Nat
  Item := Nat
  UDPAddr := String
  Command := String
  DamageSource := Nat
  HealingSource := Nat
  World := List (List String)

/-- Over `Types.heap`, the elements of a slice are the first `len` elements of its
array. -/
def Arrays.heap : Arrays Types.heap where
  elems := fun (w : List (List String)) s => (w.getD s.array []).take s.len

/-- The assignment `s[i] = v` over `Types.heap`, for `i` below the length of `s` (Go
panics otherwise; the state is then left as it is). -/
def Slice.assign (s : Slice) (i : Nat) (v : String) (w : List (List String)) :
    List (List String) :=
  if i < s.len then w.set s.array ((w.getD s.array []).set i v) else w

/-- An observer that implements CommandExecution only: `args[0] = "changed"`. -/
def ObsW : Plugin Types.heap where
  Init := id
  GetName := "ObsW"
  HandleCommandExecution := some (fun ((_, args) : String × Slice) =>
    Body.modify (Slice.assign args 0 "changed") Body.ret)

/-- An observer that implements CommandExecution only and changes nothing. -/
def ObsR : Plugin Types.heap where
  Init := id
  GetName := "ObsR"
  HandleCommandExecution := some (fun _ => Body.ret)

/-- A program state with two arrays; array 1 has capacity 5 and begins "a", "b". -/
def heap0 : List (List String) :=
  [[], ["a", "b", "", "", ""]]

/-- The slice value `args` of the scenario: the first two elements of array 1. -/
def args0 : Slice :=
  { array := 1, len := 2, cap := 5 }

/-! ## Facts about observer bodies -/

theorem Body.run_slot {W S : Type} {c : Bool} (b : Body W S c) (m : Mem W S) :
    (b.run m).1.slot = ((b.run m).2.filterMap Effect.stored).getLast?.getD m.slot := by
  induction b generalizing m with
  | ret => rfl
  | cancel k ih => simpa [Body.run, Effect.stored] using ih _
  | canceled k ih => simpa [Body.run] using ih _ m
  | load k ih => simpa [Body.run] using ih _ m
  | store v k ih =>
    simp only [Body.run, List.filterMap_cons, Effect.stored, List.getLast?_cons,
      Option.getD_some]
    exact ih _
  | get k ih => simpa [Body.run] using ih _ m
  | modify f k ih => simpa [Body.run] using ih _

theorem Body.run_canceled {W S : Type} {c : Bool} (b : Body W S c) (m : Mem W S) :
    (b.run m).1.ctx.Canceled = (m.ctx.Canceled || (b.run m).2.any Effect.isCancel) := by
  induction b generalizing m with
  | ret => simp [Body.run]
  | cancel k ih =>
    simp only [Body.run, List.any_cons, Effect.isCancel, Bool.true_or, Bool.or_true]
    rw [ih]
    simp [Context.Canceled, Context.Cancel]
  | canceled k ih => simpa [Body.run] using ih _ m
  | load k ih => simpa [Body.run] using ih _ m
  | store v k ih => simpa [Body.run, Effect.isCancel] using ih _
  | get k ih => simpa [Body.run] using ih _ m
  | modify f k ih => simpa [Body.run] using ih _

theorem Body.run_noCtx {W S : Type} {c : Bool} (b : Body W S c) (hc : c = false)
    (m : Mem W S) :
    (b.run m).1.ctx = m.ctx ∧ (b.run m).2.any Effect.isCancel = false := by
  induction b generalizing m with
  | ret => simp [Body.run]
  | cancel k _ => cases hc
  | canceled k _ => cases hc
  | load k ih => simpa [Body.run] using ih _ hc m
  | store v k ih => simpa [Body.run, Effect.isCancel] using ih hc _
  | get k ih => simpa [Body.run] using ih _ hc m
  | modify f k ih => simpa [Body.run] using ih hc _

theorem Handler.dispatch_eq_fanout {X : Types} (handler : Handler X) (K : EventKind)
    (a : Input X K) (s : State X K) :
    handler.dispatch K a s = fanout K a 0 handler.plugins s := by
  obtain ⟨plugins⟩ := handler
  have key : ∀ (f : State X K → Nat × Plugin X → State X K),
      (∀ s ip, f s ip = match ip.2.handler K with
        | some h => s.call ip.1 h a
        | none => s) →
      ∀ (l : List (Plugin X)) (n : Nat) (s : State X K),
        (l.enumFrom n).foldl f s = fanout K a n l s := by
    intro f hf l
    induction l with
    | nil => intro n s; rfl
    | cons p l ih =>
      intro n s
      simp only [List.enumFrom, List.foldl, fanout]
      rw [hf, ih]
  cases K <;>
    (show List.foldl _ s (List.enumFrom 0 plugins) = _
     refine key _ ?_ plugins 0 s
     intro s0 ip
     simp only [Plugin.handler]
     split <;> rename_i heq <;> rw [heq] <;> rfl)

/-! ## Facts about the loop -/

theorem Call.Of.slotOut_eq {X : Types} {K : EventKind} {R : List (Plugin X)}
    {c : Call X K} (hc : c.Of R) : c.slotOut = c.stores.getLast?.getD c.slotIn := by
  obtain ⟨_, h, _, _, hrun⟩ := hc
  have := Body.run_slot (h c.input) c.memIn
  rw [hrun] at this
  exact this

theorem Call.Of.canceledOut_eq {X : Types} {K : EventKind} {R : List (Plugin X)}
    {c : Call X K} (hc : c.Of R) : c.canceledOut = (c.canceledIn || c.cancels) := by
  obtain ⟨_, h, _, _, hrun⟩ := hc
  have := Body.run_canceled (h c.input) c.memIn
  rw [hrun] at this
  exact this

theorem fanout_spec {X : Types} (K : EventKind) (a : Input X K) (R : List (Plugin X)) :
    ∀ (n : Nat) (s : State X K), ∃ new : List (Call X K),
      (fanout K a n R s).calls = s.calls ++ new ∧
      new.map Call.index
        = ((R.enumFrom n).filter (fun ip => ip.2.implements K)).map Prod.fst ∧
      (∀ c ∈ new, c.input = a ∧ ∃ (plugin : Plugin X) (h : HandlerFn X K),
        (c.index, plugin) ∈ R.enumFrom n ∧ plugin.handler K = some h ∧
        (h c.input).run c.memIn = (c.memOut, c.effects)) ∧
      Threaded s.mem new (fanout K a n R s).mem := by
  induction R with
  | nil =>
    intro n s
    exact ⟨[], by simp [fanout], by simp, by simp, by simp [fanout, Threaded]⟩
  | cons p rest ih =>
    intro n s
    cases hp : p.handler K with
    | none =>
      obtain ⟨new, h1, h2, h3, h4⟩ := ih (n + 1) s
      refine ⟨new, ?_, ?_, ?_, ?_⟩
      · simpa [fanout, hp] using h1
      · simpa [List.enumFrom_cons, List.filter_cons, Plugin.implements, hp] using h2
      · intro d hd
        obtain ⟨e1, q, h, e2, e3, e4⟩ := h3 d hd
        exact ⟨e1, q, h, List.mem_cons_of_mem _ e2, e3, e4⟩
      · simpa [fanout, hp] using h4
    | some h =>
      obtain ⟨new, h1, h2, h3, h4⟩ := ih (n + 1) (s.call n h a)
      refine ⟨⟨n, a, s.mem, ((h a).run s.mem).2, ((h a).run s.mem).1⟩ :: new, ?_, ?_, ?_, ?_⟩
      · simp only [fanout, hp]
        rw [h1]
        simp only [State.call, List.append_assoc, List.singleton_append]
      · simp [List.enumFrom_cons, List.filter_cons, Plugin.implements, hp, h2]
      · intro d hd
        rcases List.mem_cons.1 hd with rfl | hd
        · exact ⟨rfl, p, h, List.mem_cons_self _ _, hp, rfl⟩
        · obtain ⟨e1, q, h, e2, e3, e4⟩ := h3 d hd
          exact ⟨e1, q, h, List.mem_cons_of_mem _ e2, e3, e4⟩
      · simp only [fanout, hp, Threaded, true_and]
        exact h4

theorem Handler.dispatch_spec {X : Types} (handler : Handler X) (K : EventKind)
    (a : Input X K) (m : Mem X.World (Slot X K)) :
    (handler.dispatch K a (State.init m)).calls.map Call.index
        = capable handler.plugins K ∧
      (∀ c ∈ (handler.dispatch K a (State.init m)).calls,
        c.input = a ∧ c.Of handler.plugins) ∧
      Threaded m (handler.dispatch K a (State.init m)).calls
        (handler.dispatch K a (State.init m)).mem := by
  rw [Handler.dispatch_eq_fanout]
  obtain ⟨new, h1, h2, h3, h4⟩ := fanout_spec K a handler.plugins 0 (State.init m)
  have hnew : (fanout K a 0 handler.plugins (State.init m)).calls = new := by
    simpa [State.init] using h1
  rw [hnew]
  refine ⟨h2, ?_, h4⟩
  intro c hc
  obtain ⟨e1, q, h, e2, e3, e4⟩ := h3 c hc
  exact ⟨e1, q, h, List.mk_mem_enum_iff_getElem?.1 e2, e3, e4⟩

/-! ## Facts about threaded invocations and about `capable` -/

theorem Threaded.split {X : Types} {K : EventKind} :
    ∀ (l1 l2 : List (Call X K)) (m m1 : Mem X.World (Slot X K)),
      Threaded m (l1 ++ l2) m1 → ∃ m0, Threaded m l1 m0 ∧ Threaded m0 l2 m1 := by
  intro l1
  induction l1 with
  | nil => intro l2 m m1 h; exact ⟨m, rfl, h⟩
  | cons c cs ih =>
    intro l2 m m1 h
    obtain ⟨h1, h2⟩ := h
    obtain ⟨m0, h3, h4⟩ := ih l2 _ m1 h2
    exact ⟨m0, ⟨h1, h3⟩, h4⟩

theorem Threaded.slot_eq {X : Types} {K : EventKind} (R : List (Plugin X)) :
    ∀ (l : List (Call X K)) (m m1 : Mem X.World (Slot X K)),
      Threaded m l m1 → (∀ c ∈ l, c.Of R) →
      m1.slot = (l.flatMap Call.stores).getLast?.getD m.slot := by
  intro l
  induction l with
  | nil => intro m m1 h _; cases h; rfl
  | cons c cs ih =>
    intro m m1 h hof
    obtain ⟨h1, h2⟩ := h
    have hc := (hof c (List.mem_cons_self _ _)).slotOut_eq
    have hrest := ih _ m1 h2 (fun d hd => hof d (List.mem_cons_of_mem _ hd))
    simp only [Call.slotOut, Call.slotIn, h1] at hc
    rw [hrest, hc, List.flatMap_cons, List.getLast?_append]
    cases (cs.flatMap Call.stores).getLast? <;> cases c.stores.getLast? <;> rfl

theorem Threaded.canceled_eq {X : Types} {K : EventKind} (R : List (Plugin X)) :
    ∀ (l : List (Call X K)) (m m1 : Mem X.World (Slot X K)),
      Threaded m l m1 → (∀ c ∈ l, c.Of R) →
      m1.ctx.Canceled = (m.ctx.Canceled || l.any Call.cancels) := by
  intro l
  induction l with
  | nil => intro m m1 h _; cases h; simp
  | cons c cs ih =>
    intro m m1 h hof
    obtain ⟨h1, h2⟩ := h
    have hc := (hof c (List.mem_cons_self _ _)).canceledOut_eq
    have hrest := ih _ m1 h2 (fun d hd => hof d (List.mem_cons_of_mem _ hd))
    simp only [Call.canceledOut, Call.canceledIn, h1] at hc
    rw [hrest, hc, List.any_cons, Bool.or_assoc]

theorem capable_pairwise {X : Types} (R : List (Plugin X)) (K : EventKind) :
    (capable R K).Pairwise (fun i j => i < j) := by
  have hsub : List.Sublist (capable R K) (List.range R.length) := by
    have := (List.filter_sublist (p := fun ip : Nat × Plugin X => ip.2.implements K)
      R.enum).map Prod.fst
    simpa [capable] using this
  exact (List.pairwise_lt_range R.length).sublist hsub

theorem mem_capable_iff {X : Types} (R : List (Plugin X)) (K : EventKind) (i : Nat) :
    i ∈ capable R K ↔ ∃ plugin, R[i]? = some plugin ∧ plugin.implements K = true := by
  simp only [capable, List.mem_map, List.mem_filter, Prod.exists, exists_and_right,
    exists_eq_right, List.mk_mem_enum_iff_getElem?]

theorem capable_lookup {X : Types} (R : List (Plugin X)) (K : EventKind) :
    (capable R K).map (fun i => R[i]?) = (R.filter (fun p => p.implements K)).map some := by
  have h1 : (R.enum.filter (fun ip => ip.2.implements K)).map (fun ip => R[ip.1]?)
      = (R.enum.filter (fun ip => ip.2.implements K)).map (fun ip => some ip.2) := by
    apply List.map_congr_left
    intro ip hip
    exact List.mem_enum_iff_getElem?.1 (List.mem_filter.1 hip).1
  have h2 : (R.enum.filter (fun ip => ip.2.implements K)).map Prod.snd
      = R.filter (fun p => p.implements K) := by
    have := List.filter_map (p := fun p : Plugin X => p.implements K) Prod.snd R.enum
    rw [List.enum_map_snd] at this
    rw [this]
    rfl
  rw [capable, List.map_map]
  rw [← h2, List.map_map]
  exact h1

theorem Threaded.head {X : Types} {K : EventKind} {l : List (Call X K)}
    {m m1 : Mem X.World (Slot X K)} (h : Threaded m l m1) (c : Call X K)
    (hc : l.head? = some c) : c.memIn = m := by
  cases l with
  | nil => simp at hc
  | cons d ds =>
    simp only [List.head?_cons, Option.some.injEq] at hc
    subst hc
    exact h.1

theorem Threaded.consecutive {X : Types} {K : EventKind} :
    ∀ (l : List (Call X K)) (m m1 : Mem X.World (Slot X K)), Threaded m l m1 →
      ∀ (k : Nat) (c d : Call X K), l[k]? = some c → l[k + 1]? = some d →
        d.memIn = c.memOut := by
  intro l
  induction l with
  | nil => intro m m1 _ k c d hc; simp at hc
  | cons e es ih =>
    intro m m1 h k c d hc hd
    obtain ⟨_, h2⟩ := h
    cases k with
    | zero =>
      simp only [List.getElem?_cons_zero, Option.some.injEq] at hc
      subst hc
      simp only [List.getElem?_cons_succ] at hd
      exact Threaded.head h2 d (by simpa [List.head?_eq_getElem?] using hd)
    | succ k =>
      simp only [List.getElem?_cons_succ] at hc hd
      exact ih _ m1 h2 k c d hc hd

theorem Threaded.last {X : Types} {K : EventKind} :
    ∀ (l : List (Call X K)) (m m1 : Mem X.World (Slot X K)), Threaded m l m1 →
      m1 = (l.getLast?.map Call.memOut).getD m := by
  intro l
  induction l with
  | nil => intro m m1 h; cases h; rfl
  | cons e es ih =>
    intro m m1 h
    obtain ⟨_, h2⟩ := h
    rw [ih _ m1 h2, List.getLast?_cons]
    cases es.getLast? <;> rfl

/-- In a dispatch, the storage handed to the observer at position `j` has the
cancellation flag set as soon as the caller had set it or an observer at an earlier
position called `Cancel()`. -/
theorem Handler.canceledIn_of_earlier {X : Types} (handler : Handler X) (K : EventKind)
    (a : Input X K) (m : Mem X.World (Slot X K)) (i j : Nat) (d : Call X K)
    (hd : d ∈ (handler.dispatch K a (State.init m)).calls) (hdj : d.index = j)
    (hij : i < j)
    (hcancel : m.ctx.Canceled = true ∨
      ∃ c ∈ (handler.dispatch K a (State.init m)).calls, c.index = i ∧ c.cancels = true) :
    d.canceledIn = true := by
  obtain ⟨hidx, hall, hthr⟩ := handler.dispatch_spec K a m
  have hpw : ((handler.dispatch K a (State.init m)).calls).Pairwise
      (fun x y => x.index < y.index) := by
    have := capable_pairwise handler.plugins K
    rw [← hidx, List.pairwise_map] at this
    exact this
  obtain ⟨l1, l2, hsplit⟩ := List.append_of_mem hd
  rw [hsplit] at hthr hall hpw hcancel
  obtain ⟨m0, ht1, ht2⟩ := Threaded.split l1 (d :: l2) m _ hthr
  have hm0 := Threaded.canceled_eq handler.plugins l1 m m0 ht1
    (fun c hc => (hall c (List.mem_append_left _ hc)).2)
  have hin : d.canceledIn = m0.ctx.Canceled := by
    rw [Call.canceledIn, ht2.1]
  rw [hin, hm0]
  rcases hcancel with h | ⟨c, hc, hci, hcc⟩
  · simp [h]
  · have hc1 : c ∈ l1 := by
      rcases List.mem_append.1 hc with h1 | h2
      · exact h1
      · exfalso
        rcases List.mem_cons.1 h2 with rfl | h3
        · omega
        · have := (List.pairwise_cons.1 (List.pairwise_append.1 hpw).2.1).1 c h3
          omega
    have : l1.any Call.cancels = true := List.any_eq_true.2 ⟨c, hc1, hcc⟩
    simp [this]

theorem fanout_of_none {X : Types} (K : EventKind) (a : Input X K) (R : List (Plugin X))
    (h : ∀ p ∈ R, p.implements K = false) :
    ∀ (n : Nat) (s : State X K), fanout K a n R s = s := by
  induction R with
  | nil => intro n s; rfl
  | cons p rest ih =>
    intro n s
    have hp : p.handler K = none := by
      have := h p (List.mem_cons_self _ _)
      simpa [Plugin.implements] using this
    simp only [fanout, hp]
    exact ih (fun q hq => h q (List.mem_cons_of_mem _ hq)) (n + 1) s

/-! ## The claims -/

/-- C1: for every registry `R` (built by `JoinPlugins`, or the one-observer registry of
`MakePlugin`) and every event kind `K`, the method of the composite handler for `K`
invokes exactly the observers of `R` that implement `K`, each once, in registry order:
the positions invoked are `capable R K`, which lists, strictly increasing, exactly the
positions whose observer implements `K`, and the sequence of invoked observers is `R`
filtered by "implements `K`". -/
theorem dispatch_invokes_capable_in_order {X : Types} (R : List (Plugin X))
    (p : Plugin X) (K : EventKind) (a : Input X K) (m : Mem X.World (Slot X K)) :
    ((JoinPlugins R).dispatch K a (State.init m)).calls.map Call.index = capable R K ∧
    (∀ i, i ∈ capable R K ↔ ∃ plugin, R[i]? = some plugin ∧ plugin.implements K = true) ∧
    (capable R K).Pairwise (fun i j => i < j) ∧
    ((JoinPlugins R).dispatch K a (State.init m)).calls.map (fun c => R[c.index]?)
      = (R.filter (fun q => q.implements K)).map some ∧
    ((MakePlugin p).dispatch K a (State.init m)).calls.map Call.index
      = (if p.implements K = true then [0] else []) := by
  have h1 : ((JoinPlugins R).dispatch K a (State.init m)).calls.map Call.index
      = capable R K := ((JoinPlugins R).dispatch_spec K a m).1
  have h2 : ((MakePlugin p).dispatch K a (State.init m)).calls.map Call.index
      = capable [p] K := ((MakePlugin p).dispatch_spec K a m).1
  refine ⟨h1, mem_capable_iff R K, capable_pairwise R K, ?_, ?_⟩
  · rw [← capable_lookup, ← h1, List.map_map]
    rfl
  · rw [h2]
    cases hp : p.implements K <;> simp [capable, MakePlugin, List.enum, hp]

/-- C2: dispatch does not short-circuit on cancellation. For every registry, kind and
positions `i < j`: if the observer at `j` implements `K`, and the context was already
canceled when the dispatch began or the observer at `i` was invoked and called
`Cancel()`, then the observer at `j` is still invoked (and it finds the context
canceled). -/
theorem dispatch_does_not_short_circuit {X : Types} (R : List (Plugin X)) (K : EventKind)
    (a : Input X K) (m : Mem X.World (Slot X K)) (i j : Nat) (q : Plugin X)
    (hij : i < j) (hq : R[j]? = some q) (hqK : q.implements K = true)
    (hcancel : m.ctx.Canceled = true ∨
      ∃ c ∈ ((JoinPlugins R).dispatch K a (State.init m)).calls,
        c.index = i ∧ c.cancels = true) :
    ∃ d ∈ ((JoinPlugins R).dispatch K a (State.init m)).calls,
      d.index = j ∧ d.Of R ∧ d.canceledIn = true := by
  obtain ⟨hidx, hall, _⟩ := (JoinPlugins R).dispatch_spec K a m
  have hj : j ∈ capable R K := (mem_capable_iff R K j).2 ⟨q, hq, hqK⟩
  have hj2 : j ∈ ((JoinPlugins R).dispatch K a (State.init m)).calls.map Call.index := by
    rw [hidx]
    exact hj
  obtain ⟨d, hd, hdj⟩ := List.mem_map.1 hj2
  exact ⟨d, hd, hdj, (hall d hd).2,
    (JoinPlugins R).canceledIn_of_earlier K a m i j d hd hdj hij hcancel⟩

/-- An instance of the theorem above: over `[ObsY, ObsX]`, `ObsY` at position 0 cancels
a Chat event and `ObsX` at position 1 is still invoked. -/
theorem dispatch_does_not_short_circuit_witness :
    (0 < 1) ∧ [ObsY Types.demo, ObsX Types.demo][1]? = some (ObsX Types.demo) ∧
    (ObsX Types.demo).implements .Chat = true ∧
    (∃ c ∈ ((JoinPlugins [ObsY Types.demo, ObsX Types.demo]).dispatch .Chat ()
        (State.init (Mem.fresh "hello" (0 : Nat)))).calls, c.index = 0 ∧ c.cancels = true) ∧
    ∃ d ∈ ((JoinPlugins [ObsY Types.demo, ObsX Types.demo]).dispatch .Chat ()
        (State.init (Mem.fresh "hello" (0 : Nat)))).calls,
      d.index = 1 ∧ d.Of [ObsY Types.demo, ObsX Types.demo] ∧ d.canceledIn = true :=
  ⟨by decide, rfl, rfl, ⟨_, List.Mem.head _, rfl, rfl⟩,
    dispatch_does_not_short_circuit [ObsY Types.demo, ObsX Types.demo] .Chat ()
      (Mem.fresh "hello" (0 : Nat)) 0 1 (ObsX Types.demo) (by decide) rfl rfl
      (Or.inr ⟨_, List.Mem.head _, rfl, rfl⟩)⟩

/-- C3: last write wins on a mutable slot. For every registry and every kind, and so
for Chat, Heal, Hurt and Respawn, the slot value the caller reads after the dispatch
(message, health, damage, spawn position) is the last value written by the invoked
observers, taken in invocation order, and the original value of the caller if no
invoked observer wrote. -/
theorem last_write_wins {X : Types} (R : List (Plugin X)) :
    (∀ (K : EventKind) (a : Input X K) (m : Mem X.World (Slot X K)),
      ((JoinPlugins R).dispatch K a (State.init m)).mem.slot
        = (((JoinPlugins R).dispatch K a (State.init m)).calls.flatMap
            Call.stores).getLast?.getD m.slot) ∧
    (∀ (m : Mem X.World String),
      ((JoinPlugins R).HandleChat (State.init m)).mem.slot
        = (((JoinPlugins R).HandleChat (State.init m)).calls.flatMap
            Call.stores).getLast?.getD m.slot) ∧
    (∀ (src : X.HealingSource) (m : Mem X.World float64),
      ((JoinPlugins R).HandleHeal src (State.init m)).mem.slot
        = (((JoinPlugins R).HandleHeal src (State.init m)).calls.flatMap
            Call.stores).getLast?.getD m.slot) ∧
    (∀ (src : X.DamageSource) (m : Mem X.World float64),
      ((JoinPlugins R).HandleHurt src (State.init m)).mem.slot
        = (((JoinPlugins R).HandleHurt src (State.init m)).calls.flatMap
            Call.stores).getLast?.getD m.slot) ∧
    (∀ (m : Mem X.World X.Vec3),
      ((JoinPlugins R).HandleRespawn (State.init m)).mem.slot
        = (((JoinPlugins R).HandleRespawn (State.init m)).calls.flatMap
            Call.stores).getLast?.getD m.slot) := by
  have key : ∀ (K : EventKind) (a : Input X K) (m : Mem X.World (Slot X K)),
      ((JoinPlugins R).dispatch K a (State.init m)).mem.slot
        = (((JoinPlugins R).dispatch K a (State.init m)).calls.flatMap
            Call.stores).getLast?.getD m.slot := by
    intro K a m
    obtain ⟨_, hall, hthr⟩ := (JoinPlugins R).dispatch_spec K a m
    exact Threaded.slot_eq R _ m _ hthr (fun c hc => (hall c hc).2)
  exact ⟨key, fun m => key .Chat () m, fun src m => key .Heal src m,
    fun src m => key .Hurt src m, fun m => key .Respawn () m⟩

/-- C4: `NopHandler` is a no-op on all 22 event kinds. For every kind, payload and
state, the call returns the state it was given: every slot holds the value of the
caller and the canceled flag is as before the call. -/
theorem nopHandler_is_noop {X : Types} (nop : NopHandler) (K : EventKind)
    (a : Input X K) (s : State X K) :
    nop.dispatch K a s = s ∧
    (nop.dispatch K a s).mem.slot = s.mem.slot ∧
    (nop.dispatch K a s).mem.ctx.Canceled = s.mem.ctx.Canceled := by
  have h : nop.dispatch K a s = s := by
    cases K <;> rfl
  rw [h]
  exact ⟨rfl, rfl, rfl⟩

/-- C5: an empty registry is equivalent to `NopHandler`. For every kind, payload and
state, dispatching through `JoinPlugins` of the empty sequence gives the same final
storage (payload and cancellation state) and the same, empty, sequence of
invocations as the method of `NopHandler`. -/
theorem empty_registry_eq_nopHandler {X : Types} (nop : NopHandler) (K : EventKind)
    (a : Input X K) (s : State X K) :
    (JoinPlugins ([] : List (Plugin X))).dispatch K a s = nop.dispatch K a s ∧
    ((JoinPlugins ([] : List (Plugin X))).dispatch K a (State.init s.mem)).calls = [] := by
  constructor
  · cases K <;> rfl
  · cases K <;> rfl

/-- C6: capability absence is silently skipped. For every registry in which no
observer implements `K`, dispatching `K` returns the state unchanged: nothing is
invoked, the slot and the canceled flag are those of the caller, whatever else the
observers implement. Scenario B: over `[ObsZ]`, which implements Heal only (its Heal
handler rewrites the amount and cancels), dispatching Hurt with damage 5.0 leaves the
damage at 5.0, the context not canceled, and invokes nothing. -/
theorem absent_capability_is_skipped {X : Types} (R : List (Plugin X)) (K : EventKind)
    (a : Input X K) (s : State X K) (h : ∀ p ∈ R, p.implements K = false) :
    (JoinPlugins R).dispatch K a s = s ∧
    (∀ (src : X.DamageSource) (w : X.World),
      ((JoinPlugins [ObsZ X]).HandleHurt src
          (State.init (Mem.fresh float64.five w))).mem.slot = float64.five ∧
      ((JoinPlugins [ObsZ X]).HandleHurt src
          (State.init (Mem.fresh float64.five w))).mem.ctx.Canceled = false ∧
      ((JoinPlugins [ObsZ X]).HandleHurt src
          (State.init (Mem.fresh float64.five w))).calls = []) := by
  constructor
  · rw [Handler.dispatch_eq_fanout]
    exact fanout_of_none K a R h 0 s
  · intro src w
    exact ⟨rfl, rfl, rfl⟩

/-- An instance of the theorem above: no observer of `[ObsZ]` implements Hurt, and
dispatching Hurt returns the state of the caller. -/
theorem absent_capability_is_skipped_witness :
    (∀ p ∈ [ObsZ Types.demo], p.implements .Hurt = false) ∧
    (JoinPlugins [ObsZ Types.demo]).dispatch .Hurt (7 : Nat)
        (State.init (Mem.fresh float64.five (0 : Nat)))
      = State.init (Mem.fresh float64.five (0 : Nat)) :=
  ⟨by simp [ObsZ, Plugin.implements, Plugin.handler],
    (absent_capability_is_skipped [ObsZ Types.demo] .Hurt (7 : Nat)
      (State.init (Mem.fresh float64.five (0 : Nat)))
      (by simp [ObsZ, Plugin.implements, Plugin.handler])).1⟩

/-- C7: a later cancellation does not undo an earlier slot write, and both reach the
caller. For every initial message and an uncanceled context, dispatching Chat over
`[ObsX, ObsY]` (`ObsX` sets the message to "[filtered]", `ObsY` only cancels) ends with
message "[filtered]" and `Canceled() == true`; both observers were invoked, in order.
The message "hello" is one instance. -/
theorem chat_rewrite_then_cancel {X : Types} (msg : String) (w : X.World) :
    ((JoinPlugins [ObsX X, ObsY X]).HandleChat
        (State.init (Mem.fresh msg w))).mem.slot = "[filtered]" ∧
    ((JoinPlugins [ObsX X, ObsY X]).HandleChat
        (State.init (Mem.fresh msg w))).mem.ctx.Canceled = true ∧
    ((JoinPlugins [ObsX X, ObsY X]).HandleChat
        (State.init (Mem.fresh msg w))).calls.map Call.index = [0, 1] ∧
    ((JoinPlugins [ObsX X, ObsY X]).HandleChat
        (State.init (Mem.fresh "hello" w))).mem.slot = "[filtered]" ∧
    ((JoinPlugins [ObsX X, ObsY X]).HandleChat
        (State.init (Mem.fresh "hello" w))).mem.ctx.Canceled = true :=
  ⟨rfl, rfl, rfl, rfl, rfl⟩

/-- C8: cancellation is monotonic and idempotent within one dispatch. `Cancel()` makes
`Canceled()` true and a second `Cancel()` leaves it true; and for every registry and
kind, if the context was canceled before the dispatch or some invoked observer calls
`Cancel()`, then `Canceled()` is true when the dispatch returns. No invocation turns
the flag from true to false, an invocation that calls `Cancel()` leaves it true, and
the final flag is set exactly when the caller had set it or some invoked observer
called `Cancel()`. Observer bodies act on the context through `Cancel()` and
`Canceled()` only. -/
theorem cancellation_is_monotonic {X : Types} (R : List (Plugin X)) (K : EventKind)
    (a : Input X K) (m : Mem X.World (Slot X K)) (ctx : Context)
    (h : m.ctx.Canceled = true ∨
      ∃ c ∈ ((JoinPlugins R).dispatch K a (State.init m)).calls, c.cancels = true) :
    ctx.Cancel.Canceled = true ∧
    ctx.Cancel.Cancel.Canceled = true ∧
    ((JoinPlugins R).dispatch K a (State.init m)).mem.ctx.Canceled = true ∧
    (∀ c ∈ ((JoinPlugins R).dispatch K a (State.init m)).calls,
      c.canceledIn = true → c.canceledOut = true) ∧
    (∀ c ∈ ((JoinPlugins R).dispatch K a (State.init m)).calls,
      c.cancels = true → c.canceledOut = true) ∧
    ((JoinPlugins R).dispatch K a (State.init m)).mem.ctx.Canceled
      = (m.ctx.Canceled ||
          ((JoinPlugins R).dispatch K a (State.init m)).calls.any Call.cancels) := by
  obtain ⟨_, hall, hthr⟩ := (JoinPlugins R).dispatch_spec K a m
  have hfin := Threaded.canceled_eq R _ m _ hthr (fun c hc => (hall c hc).2)
  refine ⟨rfl, rfl, ?_, ?_, ?_, hfin⟩
  · rw [hfin]
    rcases h with h | ⟨c, hc, hcc⟩
    · simp [h]
    · have : ((JoinPlugins R).dispatch K a (State.init m)).calls.any Call.cancels = true :=
        List.any_eq_true.2 ⟨c, hc, hcc⟩
      simp [this]
  · intro c hc hin
    rw [(hall c hc).2.canceledOut_eq, hin]
    rfl
  · intro c hc hcc
    rw [(hall c hc).2.canceledOut_eq, hcc]
    simp

/-- An instance of the theorem above: over `[ObsY, ObsX]`, `ObsY` calls `Cancel()` on a
Chat event and the context is canceled when the dispatch returns, `ObsX` having run
after it. -/
theorem cancellation_is_monotonic_witness :
    (∃ c ∈ ((JoinPlugins [ObsY Types.demo, ObsX Types.demo]).dispatch .Chat ()
        (State.init (Mem.fresh "hello" (0 : Nat)))).calls, c.cancels = true) ∧
    ((JoinPlugins [ObsY Types.demo, ObsX Types.demo]).dispatch .Chat ()
        (State.init (Mem.fresh "hello" (0 : Nat)))).mem.ctx.Canceled = true :=
  ⟨⟨_, List.Mem.head _, rfl⟩,
    (cancellation_is_monotonic [ObsY Types.demo, ObsX Types.demo] .Chat ()
      (Mem.fresh "hello" (0 : Nat)) { canceled := false }
      (Or.inr ⟨_, List.Mem.head _, rfl⟩)).2.2.1⟩

/-- C9: one context and one slot are threaded through the whole dispatch. For every
registry and kind, the invocations are threaded from the storage of the caller to the
storage the dispatch returns: the first invoked observer receives the cancellation
flag and slot value of the caller, each next one receives them exactly as the one
invoked before it left them, the caller reads back what the last one left, and what
an invocation leaves is the result of running the handler method of that observer on
what it received. -/
theorem dispatch_threads_context_and_slot {X : Types} (R : List (Plugin X))
    (K : EventKind) (a : Input X K) (m : Mem X.World (Slot X K)) :
    Threaded m ((JoinPlugins R).dispatch K a (State.init m)).calls
      ((JoinPlugins R).dispatch K a (State.init m)).mem ∧
    (∀ c, ((JoinPlugins R).dispatch K a (State.init m)).calls.head? = some c →
      c.canceledIn = m.ctx.Canceled ∧ c.slotIn = m.slot) ∧
    (∀ (k : Nat) (c d : Call X K),
      ((JoinPlugins R).dispatch K a (State.init m)).calls[k]? = some c →
      ((JoinPlugins R).dispatch K a (State.init m)).calls[k + 1]? = some d →
      d.canceledIn = c.canceledOut ∧ d.slotIn = c.slotOut) ∧
    (∀ c, ((JoinPlugins R).dispatch K a (State.init m)).calls.getLast? = some c →
      ((JoinPlugins R).dispatch K a (State.init m)).mem.ctx.Canceled = c.canceledOut ∧
      ((JoinPlugins R).dispatch K a (State.init m)).mem.slot = c.slotOut) ∧
    (((JoinPlugins R).dispatch K a (State.init m)).calls = [] →
      ((JoinPlugins R).dispatch K a (State.init m)).mem = m) ∧
    (∀ c ∈ ((JoinPlugins R).dispatch K a (State.init m)).calls, c.Of R) := by
  obtain ⟨_, hall, hthr⟩ := (JoinPlugins R).dispatch_spec K a m
  refine ⟨hthr, ?_, ?_, ?_, ?_, fun c hc => (hall c hc).2⟩
  · intro c hc
    have := Threaded.head hthr c hc
    simp only [Call.canceledIn, Call.slotIn, this, and_self]
  · intro k c d hc hd
    have := Threaded.consecutive _ m _ hthr k c d hc hd
    simp only [Call.canceledIn, Call.slotIn, Call.canceledOut, Call.slotOut, this, and_self]
  · intro c hc
    have := Threaded.last _ m _ hthr
    rw [hc] at this
    simp only [Option.map_some', Option.getD_some] at this
    simp only [this, Call.canceledOut, Call.slotOut, and_self]
  · intro hnil
    have := Threaded.last _ m _ hthr
    rw [hnil] at this
    exact this

/-- C10, as amended: by-value inputs are passed through unchanged and in position. For
every registry and kind, each invoked observer receives exactly the by-value arguments
the caller supplied, whatever earlier observers did: for Move `newPos, newYaw,
newPitch`, for FoodLoss `from, to`, for ItemDamage the item stack and the damage, for
ItemUseOnBlock `pos, face, clickPos`, for CommandExecution `command` and the slice
value `args` (same array, length and capacity). The damage of ItemDamage is passed by
value: every invoked observer receives the amount of the caller. The elements of `args`
are not part of the slice value: they lie in the array all observers and the caller
share, so the first invoked observer finds them as the caller supplied them, each next
one finds them as the one invoked before it left them, and the caller finds them as
the last one left them. -/
theorem inputs_are_passed_unchanged {X : Types} (R : List (Plugin X)) :
    (∀ (K : EventKind) (a : Input X K) (m : Mem X.World (Slot X K)),
      ∀ c ∈ ((JoinPlugins R).dispatch K a (State.init m)).calls, c.input = a) ∧
    (∀ (newPos : X.Vec3) (newYaw newPitch : float64) (m : Mem X.World Unit),
      ∀ c ∈ ((JoinPlugins R).HandleMove newPos newYaw newPitch (State.init m)).calls,
        c.input = (newPos, newYaw, newPitch)) ∧
    (∀ (from_ to_ : Int) (m : Mem X.World Unit),
      ∀ c ∈ ((JoinPlugins R).HandleFoodLoss from_ to_ (State.init m)).calls,
        c.input = (from_, to_)) ∧
    (∀ (i : X.Stack) (damage : Int) (m : Mem X.World Unit),
      ∀ c ∈ ((JoinPlugins R).HandleItemDamage i damage (State.init m)).calls,
        c.input = (i, damage)) ∧
    (∀ (pos : X.BlockPos) (face : X.Face) (clickPos : X.Vec3) (m : Mem X.World Unit),
      ∀ c ∈ ((JoinPlugins R).HandleItemUseOnBlock pos face clickPos (State.init m)).calls,
        c.input = (pos, face, clickPos)) ∧
    (∀ (command : X.Command) (args : Slice) (m : Mem X.World Unit),
      ∀ c ∈ ((JoinPlugins R).HandleCommandExecution command args (State.init m)).calls,
        c.input = (command, args)) ∧
    (∀ (A : Arrays X) (command : X.Command) (args : Slice) (m : Mem X.World Unit),
      (∀ c, ((JoinPlugins R).HandleCommandExecution command args
            (State.init m)).calls.head? = some c →
        A.elems c.memIn.world args = A.elems m.world args) ∧
      (∀ (k : Nat) (c d : Call X .CommandExecution),
        ((JoinPlugins R).HandleCommandExecution command args
            (State.init m)).calls[k]? = some c →
        ((JoinPlugins R).HandleCommandExecution command args
            (State.init m)).calls[k + 1]? = some d →
        A.elems d.memIn.world args = A.elems c.memOut.world args) ∧
      (∀ c, ((JoinPlugins R).HandleCommandExecution command args
            (State.init m)).calls.getLast? = some c →
        A.elems ((JoinPlugins R).HandleCommandExecution command args
            (State.init m)).mem.world args = A.elems c.memOut.world args) ∧
      (((JoinPlugins R).HandleCommandExecution command args (State.init m)).calls = [] →
        A.elems ((JoinPlugins R).HandleCommandExecution command args
            (State.init m)).mem.world args = A.elems m.world args)) := by
  have key : ∀ (K : EventKind) (a : Input X K) (m : Mem X.World (Slot X K)),
      ∀ c ∈ ((JoinPlugins R).dispatch K a (State.init m)).calls, c.input = a :=
    fun K a m c hc => (((JoinPlugins R).dispatch_spec K a m).2.1 c hc).1
  refine ⟨key, fun newPos newYaw newPitch m => key .Move (newPos, newYaw, newPitch) m,
    fun from_ to_ m => key .FoodLoss (from_, to_) m,
    fun i damage m => key .ItemDamage (i, damage) m,
    fun pos face clickPos m => key .ItemUseOnBlock (pos, face, clickPos) m,
    fun command args m => key .CommandExecution (command, args) m, ?_⟩
  intro A command args m
  have hthr : Threaded (K := .CommandExecution) m
      ((JoinPlugins R).HandleCommandExecution command args (State.init m)).calls
      ((JoinPlugins R).HandleCommandExecution command args (State.init m)).mem :=
    ((JoinPlugins R).dispatch_spec .CommandExecution (command, args) m).2.2
  refine ⟨?_, ?_, ?_, ?_⟩
  · intro c hc
    rw [Threaded.head hthr c hc]
  · intro k c d hc hd
    rw [Threaded.consecutive (K := .CommandExecution) _ m _ hthr k c d hc hd]
  · intro c hc
    have := Threaded.last (K := .CommandExecution) _ m _ hthr
    rw [hc] at this
    rw [this]
    rfl
  · intro hnil
    have := Threaded.last (K := .CommandExecution) _ m _ hthr
    rw [hnil] at this
    rw [this]
    rfl

/-- The elements of `args` an observer receives do depend on what earlier observers
did. Over `[ObsW, ObsR]`, dispatching CommandExecution with command "tp" and `args`
the slice of the first two elements "a", "b" of array 1: both observers receive the
same by-value arguments, yet `ObsR`, invoked after `ObsW` ran `args[0] = "changed"`,
finds the elements "changed", "b", and so does the caller afterwards. So it is not the
case that every invoked observer finds the elements the caller supplied. -/
theorem args_elements_depend_on_earlier_observers :
    ((JoinPlugins [ObsW, ObsR]).HandleCommandExecution "tp" args0
        (State.init (Mem.fresh () heap0))).calls.map Call.index = [0, 1] ∧
    ((JoinPlugins [ObsW, ObsR]).HandleCommandExecution "tp" args0
        (State.init (Mem.fresh () heap0))).calls.map Call.input
      = [("tp", args0), ("tp", args0)] ∧
    Arrays.heap.elems heap0 args0 = ["a", "b"] ∧
    ((JoinPlugins [ObsW, ObsR]).HandleCommandExecution "tp" args0
        (State.init (Mem.fresh () heap0))).calls.map
        (fun c => Arrays.heap.elems c.memIn.world args0)
      = [["a", "b"], ["changed", "b"]] ∧
    Arrays.heap.elems ((JoinPlugins [ObsW, ObsR]).HandleCommandExecution "tp" args0
        (State.init (Mem.fresh () heap0))).mem.world args0 = ["changed", "b"] ∧
    ¬ (∀ c ∈ ((JoinPlugins [ObsW, ObsR]).HandleCommandExecution "tp" args0
          (State.init (Mem.fresh () heap0))).calls,
        Arrays.heap.elems c.memIn.world args0 = Arrays.heap.elems heap0 args0) := by
  refine ⟨rfl, rfl, rfl, rfl, rfl, ?_⟩
  intro h
  have h1 := h _ (List.Mem.tail _ (List.Mem.head _))
  have h2 : (["changed", "b"] : List String) = ["a", "b"] := h1
  exact absurd h2 (by decide)

/-! ## Further facts about the loop -/

theorem Body.run_noCtx_indep {W S : Type} {c : Bool} (b : Body W S c) (hc : c = false)
    (m : Mem W S) (ctx : Context) :
    b.run { m with ctx := ctx } = ({ (b.run m).1 with ctx := ctx }, (b.run m).2) := by
  induction b generalizing m with
  | ret => rfl
  | cancel k _ => cases hc
  | canceled k _ => cases hc
  | load k ih => exact ih _ hc m
  | store v k ih =>
    have := ih hc { m with slot := v }
    simp only [Body.run] at this ⊢
    rw [this]
  | get k ih => exact ih _ hc m
  | modify f k ih =>
    have := ih hc { m with world := f m.world }
    simp only [Body.run] at this ⊢
    rw [this]

theorem fanout_withCtx {X : Types} (K : EventKind) (hK : K.hasCtx = false) (a : Input X K)
    (R : List (Plugin X)) (ctx : Context) :
    ∀ (n : Nat) (s s1 : State X K), s1.mem = { s.mem with ctx := ctx } →
      s1.calls = s.calls.map (Call.withCtx ctx) →
      (fanout K a n R s1).mem = { (fanout K a n R s).mem with ctx := ctx } ∧
      (fanout K a n R s1).calls = (fanout K a n R s).calls.map (Call.withCtx ctx) := by
  induction R with
  | nil => intro n s s1 hm hc; exact ⟨hm, hc⟩
  | cons p rest ih =>
    intro n s s1 hm hc
    cases hp : p.handler K with
    | none =>
      simp only [fanout, hp]
      exact ih (n + 1) s s1 hm hc
    | some h =>
      simp only [fanout, hp]
      have hrun := Body.run_noCtx_indep (h a) hK s.mem ctx
      apply ih (n + 1) (s.call n h a) (s1.call n h a)
      · simp only [State.call, hm, hrun]
      · simp only [State.call, hm, hc, hrun, List.map_append, List.map_cons, List.map_nil,
          Call.withCtx]

theorem fanout_append {X : Types} (K : EventKind) (a : Input X K)
    (R1 R2 : List (Plugin X)) :
    ∀ (n : Nat) (s : State X K),
      fanout K a n (R1 ++ R2) s = fanout K a (n + R1.length) R2 (fanout K a n R1 s) := by
  induction R1 with
  | nil => intro n s; rfl
  | cons p rest ih =>
    intro n s
    show fanout K a (n + 1) (rest ++ R2) _ = _
    rw [ih, List.length_cons, show n + (rest.length + 1) = n + 1 + rest.length by omega]
    rfl

theorem fanout_shift {X : Types} (K : EventKind) (a : Input X K) (R : List (Plugin X))
    (k : Nat) :
    ∀ (n : Nat) (s s1 : State X K), s1.mem = s.mem →
      ∃ new : List (Call X K), (fanout K a n R s).calls = s.calls ++ new ∧
        (fanout K a (n + k) R s1).calls = s1.calls ++ new.map (Call.shift k) ∧
        (fanout K a (n + k) R s1).mem = (fanout K a n R s).mem := by
  induction R with
  | nil => intro n s s1 hm; exact ⟨[], by simp [fanout], by simp [fanout], hm⟩
  | cons p rest ih =>
    intro n s s1 hm
    cases hp : p.handler K with
    | none =>
      simp only [fanout, hp]
      have := ih (n + 1) s s1 hm
      rwa [show n + 1 + k = n + k + 1 by omega] at this
    | some h =>
      simp only [fanout, hp]
      obtain ⟨new, h1, h2, h3⟩ := ih (n + 1) (s.call n h a) (s1.call (n + k) h a)
        (by simp only [State.call, hm])
      rw [show n + 1 + k = n + k + 1 by omega] at h2 h3
      refine ⟨⟨n, a, s.mem, ((h a).run s.mem).2, ((h a).run s.mem).1⟩ :: new, ?_, ?_, h3⟩
      · rw [h1]
        simp only [State.call, List.append_assoc, List.singleton_append]
      · rw [h2]
        simp only [State.call, hm, List.append_assoc, List.singleton_append, List.map_cons,
          Call.shift]

theorem fanout_noCtx_ctx {X : Types} (K : EventKind) (hK : K.hasCtx = false)
    (a : Input X K) (R : List (Plugin X)) :
    ∀ (n : Nat) (s : State X K), (fanout K a n R s).mem.ctx = s.mem.ctx := by
  induction R with
  | nil => intro n s; rfl
  | cons p rest ih =>
    intro n s
    cases hp : p.handler K with
    | none => simp only [fanout, hp]; exact ih (n + 1) s
    | some h =>
      simp only [fanout, hp]
      rw [ih (n + 1) (s.call n h a)]
      exact (Body.run_noCtx (h a) hK s.mem).1

theorem Threaded.slotIn_eq {X : Types} {K : EventKind} (R : List (Plugin X)) :
    ∀ (l : List (Call X K)) (m m1 : Mem X.World (Slot X K)),
      Threaded m l m1 → (∀ c ∈ l, c.Of R) →
      ∀ (k : Nat) (c : Call X K), l[k]? = some c →
        c.slotIn = ((l.take k).flatMap Call.stores).getLast?.getD m.slot := by
  intro l
  induction l with
  | nil => intro m m1 _ _ k c hc; simp at hc
  | cons e es ih =>
    intro m m1 h hof k c hc
    obtain ⟨h1, h2⟩ := h
    cases k with
    | zero =>
      simp only [List.getElem?_cons_zero, Option.some.injEq] at hc
      subst hc
      simp [Call.slotIn, h1]
    | succ k =>
      simp only [List.getElem?_cons_succ] at hc
      have he := (hof e (List.mem_cons_self _ _)).slotOut_eq
      have hrest := ih _ m1 h2 (fun d hd => hof d (List.mem_cons_of_mem _ hd)) k c hc
      simp only [Call.slotOut, Call.slotIn, h1] at he
      rw [hrest, he, List.take_succ_cons, List.flatMap_cons, List.getLast?_append]
      cases ((es.take k).flatMap Call.stores).getLast? <;>
        cases e.stores.getLast? <;> rfl

theorem Handler.invoked_eq_filter {X : Types} (R : List (Plugin X)) (K : EventKind)
    (a : Input X K) (m : Mem X.World (Slot X K)) :
    ((JoinPlugins R).dispatch K a (State.init m)).calls.map (fun c => R[c.index]?)
      = (R.filter (fun q => q.implements K)).map some := by
  have h1 : ((JoinPlugins R).dispatch K a (State.init m)).calls.map Call.index
      = capable R K := ((JoinPlugins R).dispatch_spec K a m).1
  rw [← capable_lookup, ← h1, List.map_map]
  rfl

/-! ## The claims, continued -/

/-- C11: Quit is always delivered and is not gated by cancellation. For every registry,
dispatching Quit invokes every Quit-capable observer exactly once, in registry order,
and the outcome does not depend on the state of a context left by an earlier dispatch:
with another context in the storage the same invocations happen with the same effects
and the same final program state, and the context is left as it was. `HandleQuit`, like
`HandleDeath` and `HandleRespawn`, has no `ctx` parameter. Scenario D: over
`[ObsA, ObsB]`, both implementing Quit, after a Chat dispatch through any registry
(canceled or not; the one through `[ObsY]` is canceled), Quit invokes `ObsA` and then
`ObsB`. -/
theorem quit_is_always_delivered {X : Types} (R R0 : List (Plugin X))
    (m : Mem X.World Unit) (ctx : Context) (f g : X.World → X.World)
    (m0 : Mem X.World String) :
    ((JoinPlugins R).HandleQuit (State.init m)).calls.map Call.index = capable R .Quit ∧
    (capable R .Quit).Pairwise (fun i j => i < j) ∧
    (∀ i, i ∈ capable R .Quit ↔
      ∃ plugin, R[i]? = some plugin ∧ plugin.HandleQuit.isSome = true) ∧
    ((JoinPlugins R).HandleQuit (State.init { m with ctx := ctx })).calls
      = ((JoinPlugins R).HandleQuit (State.init m)).calls.map (Call.withCtx ctx) ∧
    ((JoinPlugins R).HandleQuit (State.init { m with ctx := ctx })).calls.map Call.index
      = ((JoinPlugins R).HandleQuit (State.init m)).calls.map Call.index ∧
    ((JoinPlugins R).HandleQuit (State.init { m with ctx := ctx })).mem
      = { ((JoinPlugins R).HandleQuit (State.init m)).mem with ctx := ctx } ∧
    ((JoinPlugins R).HandleQuit (State.init m)).mem.ctx = m.ctx ∧
    (EventKind.Quit.hasCtx = false ∧ EventKind.Death.hasCtx = false ∧
      EventKind.Respawn.hasCtx = false) ∧
    ((JoinPlugins [ObsA X f, ObsB X g]).HandleQuit
        (State.init ((JoinPlugins R0).HandleChat (State.init m0)).mem.next)).calls.map
      Call.index = [0, 1] ∧
    ((JoinPlugins [ObsA X f, ObsB X g]).HandleQuit
        (State.init ((JoinPlugins R0).HandleChat (State.init m0)).mem.next)).mem.world
      = g (f ((JoinPlugins R0).HandleChat (State.init m0)).mem.world) ∧
    ((JoinPlugins [ObsY X]).HandleChat (State.init m0)).mem.ctx.Canceled = true ∧
    ((JoinPlugins [ObsA X f, ObsB X g]).HandleQuit
        (State.init ((JoinPlugins [ObsY X]).HandleChat (State.init m0)).mem.next)).calls.map
      Call.index = [0, 1] := by
  have hidx : ∀ m1 : Mem X.World Unit,
      ((JoinPlugins R).HandleQuit (State.init m1)).calls.map Call.index = capable R .Quit :=
    fun m1 => ((JoinPlugins R).dispatch_spec .Quit () m1).1
  have hw := fanout_withCtx (X := X) .Quit rfl () R ctx 0 (State.init m)
    (State.init { m with ctx := ctx }) rfl rfl
  have hq : ∀ s : State X .Quit, (JoinPlugins R).HandleQuit s = fanout .Quit () 0 R s :=
    fun s => (JoinPlugins R).dispatch_eq_fanout .Quit () s
  refine ⟨hidx m, capable_pairwise R .Quit, mem_capable_iff R .Quit, ?_, ?_, ?_, ?_,
    ⟨rfl, rfl, rfl⟩, rfl, rfl, rfl, rfl⟩
  · rw [hq, hq]
    exact hw.2
  · rw [hidx, hidx]
  · rw [hq, hq]
    exact hw.1
  · rw [hq]
    exact fanout_noCtx_ctx .Quit rfl () R 0 (State.init m)

/-- C12: the transfer destination address is a mutable output slot. For every registry
and every Transfer dispatch, each invoked observer receives the address last written
by the observers invoked before it (the address of the caller if none of them wrote),
an observer that writes leaves its last write, and the caller reads back the last write
of all, or its own address if no invoked observer wrote. Over
`[ObsT v1, ObsX, ObsT v2]` the second Transfer observer receives `v1` and the caller
reads `v2`. -/
theorem transfer_address_is_mutable_slot {X : Types} (R : List (Plugin X))
    (m : Mem X.World X.UDPAddr) (v1 v2 : X.UDPAddr) :
    ((JoinPlugins R).HandleTransfer (State.init m)).mem.slot
      = (((JoinPlugins R).HandleTransfer (State.init m)).calls.flatMap
          Call.stores).getLast?.getD m.slot ∧
    (∀ (k : Nat) (c : Call X .Transfer),
      ((JoinPlugins R).HandleTransfer (State.init m)).calls[k]? = some c →
      c.slotIn = ((((JoinPlugins R).HandleTransfer (State.init m)).calls.take k).flatMap
          Call.stores).getLast?.getD m.slot) ∧
    (∀ (k : Nat) (c d : Call X .Transfer),
      ((JoinPlugins R).HandleTransfer (State.init m)).calls[k]? = some c →
      ((JoinPlugins R).HandleTransfer (State.init m)).calls[k + 1]? = some d →
      d.slotIn = c.slotOut) ∧
    (∀ c ∈ ((JoinPlugins R).HandleTransfer (State.init m)).calls,
      c.slotOut = c.stores.getLast?.getD c.slotIn) ∧
    ((JoinPlugins [ObsT X v1, ObsX X, ObsT X v2]).HandleTransfer
        (State.init m)).mem.slot = v2 ∧
    ((JoinPlugins [ObsT X v1, ObsX X, ObsT X v2]).HandleTransfer
        (State.init m)).calls.map Call.index = [0, 2] ∧
    ((JoinPlugins [ObsT X v1, ObsX X, ObsT X v2]).HandleTransfer
        (State.init m)).calls.map Call.slotIn = [m.slot, v1] := by
  obtain ⟨_, hall, hthr⟩ := (JoinPlugins R).dispatch_spec .Transfer () m
  have hof : ∀ c ∈ ((JoinPlugins R).dispatch .Transfer () (State.init m)).calls, c.Of R :=
    fun c hc => (hall c hc).2
  refine ⟨Threaded.slot_eq (K := .Transfer) R _ m _ hthr hof,
    Threaded.slotIn_eq (K := .Transfer) R _ m _ hthr hof, ?_,
    fun c hc => (hof c hc).slotOut_eq, rfl, rfl, rfl⟩
  intro k c d hc hd
  have := Threaded.consecutive (K := .Transfer) _ m _ hthr k c d hc hd
  simp only [Call.slotIn, Call.slotOut, this]

/-- C13: no cross-talk between capabilities. For each of the 22 methods of the
composite handler, every invocation it makes is of the handler method of that same
kind, on an observer whose type has that method; an observer whose type lacks the
method of a kind is never invoked by a dispatch of that kind, whatever other methods it
has. In particular an observer without `HandleBlockPlace` (one implementing only
BlockPick, say) is never invoked by a BlockPlace dispatch and vice versa, and likewise
for StartBreak and BlockBreak, ItemUseOnEntity and AttackEntity, Heal and Hurt. Over
`[ObsPick, ObsPlace]` a BlockPlace dispatch invokes position 1 only and a BlockPick
dispatch position 0 only. -/
theorem no_cross_talk_between_capabilities {X : Types} (R : List (Plugin X)) :
    (∀ (K : EventKind) (a : Input X K) (m : Mem X.World (Slot X K)),
      ∀ c ∈ ((JoinPlugins R).dispatch K a (State.init m)).calls,
        ∃ (plugin : Plugin X) (h : HandlerFn X K), R[c.index]? = some plugin ∧
          plugin.handler K = some h ∧ (h a).run c.memIn = (c.memOut, c.effects)) ∧
    (∀ (K : EventKind) (a : Input X K) (m : Mem X.World (Slot X K)) (i : Nat)
        (plugin : Plugin X), R[i]? = some plugin → plugin.implements K = false →
      ∀ c ∈ ((JoinPlugins R).dispatch K a (State.init m)).calls, c.index ≠ i) ∧
    (∀ (newPos : X.Vec3) (newYaw : float64) (newPitch : float64) (m : Mem X.World (Slot X .Move)),
      ∀ c ∈ ((JoinPlugins R).HandleMove newPos newYaw newPitch (State.init m)).calls,
        ∃ (plugin : Plugin X) (h : HandlerFn X .Move), R[c.index]? = some plugin ∧
          plugin.HandleMove = some h ∧
          (h (newPos, newYaw, newPitch)).run c.memIn = (c.memOut, c.effects)) ∧
    (∀ (pos : X.Vec3) (m : Mem X.World (Slot X .Teleport)),
      ∀ c ∈ ((JoinPlugins R).HandleTeleport pos (State.init m)).calls,
        ∃ (plugin : Plugin X) (h : HandlerFn X .Teleport), R[c.index]? = some plugin ∧
          plugin.HandleTeleport = some h ∧
          (h pos).run c.memIn = (c.memOut, c.effects)) ∧
    (∀ (m : Mem X.World (Slot X .Chat)),
      ∀ c ∈ ((JoinPlugins R).HandleChat (State.init m)).calls,
        ∃ (plugin : Plugin X) (h : HandlerFn X .Chat), R[c.index]? = some plugin ∧
          plugin.HandleChat = some h ∧
          (h ()).run c.memIn = (c.memOut, c.effects)) ∧
    (∀ (from_ : Int) (to_ : Int) (m : Mem X.World (Slot X .FoodLoss)),
      ∀ c ∈ ((JoinPlugins R).HandleFoodLoss from_ to_ (State.init m)).calls,
        ∃ (plugin : Plugin X) (h : HandlerFn X .FoodLoss), R[c.index]? = some plugin ∧
          plugin.HandleFoodLoss = some h ∧
          (h (from_, to_)).run c.memIn = (c.memOut, c.effects)) ∧
    (∀ (src : X.HealingSource) (m : Mem X.World (Slot X .Heal)),
      ∀ c ∈ ((JoinPlugins R).HandleHeal src (State.init m)).calls,
        ∃ (plugin : Plugin X) (h : HandlerFn X .Heal), R[c.index]? = some plugin ∧
          plugin.HandleHeal = some h ∧
          (h src).run c.memIn = (c.memOut, c.effects)) ∧
    (∀ (src : X.DamageSource) (m : Mem X.World (Slot X .Hurt)),
      ∀ c ∈ ((JoinPlugins R).HandleHurt src (State.init m)).calls,
        ∃ (plugin : Plugin X) (h : HandlerFn X .Hurt), R[c.index]? = some plugin ∧
          plugin.HandleHurt = some h ∧
          (h src).run c.memIn = (c.memOut, c.effects)) ∧
    (∀ (src : X.DamageSource) (m : Mem X.World (Slot X .Death)),
      ∀ c ∈ ((JoinPlugins R).HandleDeath src (State.init m)).calls,
        ∃ (plugin : Plugin X) (h : HandlerFn X .Death), R[c.index]? = some plugin ∧
          plugin.HandleDeath = some h ∧
          (h src).run c.memIn = (c.memOut, c.effects)) ∧
    (∀ (m : Mem X.World (Slot X .Respawn)),
      ∀ c ∈ ((JoinPlugins R).HandleRespawn (State.init m)).calls,
        ∃ (plugin : Plugin X) (h : HandlerFn X .Respawn), R[c.index]? = some plugin ∧
          plugin.HandleRespawn = some h ∧
          (h ()).run c.memIn = (c.memOut, c.effects)) ∧
    (∀ (pos : X.BlockPos) (m : Mem X.World (Slot X .StartBreak)),
      ∀ c ∈ ((JoinPlugins R).HandleStartBreak pos (State.init m)).calls,
        ∃ (plugin : Plugin X) (h : HandlerFn X .StartBreak), R[c.index]? = some plugin ∧
          plugin.HandleStartBreak = some h ∧
          (h pos).run c.memIn = (c.memOut, c.effects)) ∧
    (∀ (pos : X.BlockPos) (m : Mem X.World (Slot X .BlockBreak)),
      ∀ c ∈ ((JoinPlugins R).HandleBlockBreak pos (State.init m)).calls,
        ∃ (plugin : Plugin X) (h : HandlerFn X .BlockBreak), R[c.index]? = some plugin ∧
          plugin.HandleBlockBreak = some h ∧
          (h pos).run c.memIn = (c.memOut, c.effects)) ∧
    (∀ (pos : X.BlockPos) (b : X.Block) (m : Mem X.World (Slot X .BlockPlace)),
      ∀ c ∈ ((JoinPlugins R).HandleBlockPlace pos b (State.init m)).calls,
        ∃ (plugin : Plugin X) (h : HandlerFn X .BlockPlace), R[c.index]? = some plugin ∧
          plugin.HandleBlockPlace = some h ∧
          (h (pos, b)).run c.memIn = (c.memOut, c.effects)) ∧
    (∀ (pos : X.BlockPos) (b : X.Block) (m : Mem X.World (Slot X .BlockPick)),
      ∀ c ∈ ((JoinPlugins R).HandleBlockPick pos b (State.init m)).calls,
        ∃ (plugin : Plugin X) (h : HandlerFn X .BlockPick), R[c.index]? = some plugin ∧
          plugin.HandleBlockPick = some h ∧
          (h (pos, b)).run c.memIn = (c.memOut, c.effects)) ∧
    (∀ (m : Mem X.World (Slot X .ItemUse)),
      ∀ c ∈ ((JoinPlugins R).HandleItemUse (State.init m)).calls,
        ∃ (plugin : Plugin X) (h : HandlerFn X .ItemUse), R[c.index]? = some plugin ∧
          plugin.HandleItemUse = some h ∧
          (h ()).run c.memIn = (c.memOut, c.effects)) ∧
    (∀ (pos : X.BlockPos) (face : X.Face) (clickPos : X.Vec3)
        (m : Mem X.World (Slot X .ItemUseOnBlock)),
      ∀ c ∈ ((JoinPlugins R).HandleItemUseOnBlock pos face clickPos (State.init m)).calls,
        ∃ (plugin : Plugin X) (h : HandlerFn X .ItemUseOnBlock), R[c.index]? = some plugin ∧
          plugin.HandleItemUseOnBlock = some h ∧
          (h (pos, face, clickPos)).run c.memIn = (c.memOut, c.effects)) ∧
    (∀ (e : X.Entity) (m : Mem X.World (Slot X .ItemUseOnEntity)),
      ∀ c ∈ ((JoinPlugins R).HandleItemUseOnEntity e (State.init m)).calls,
        ∃ (plugin : Plugin X) (h : HandlerFn X .ItemUseOnEntity), R[c.index]? = some plugin ∧
          plugin.HandleItemUseOnEntity = some h ∧
          (h e).run c.memIn = (c.memOut, c.effects)) ∧
    (∀ (e : X.Entity) (m : Mem X.World (Slot X .AttackEntity)),
      ∀ c ∈ ((JoinPlugins R).HandleAttackEntity e (State.init m)).calls,
        ∃ (plugin : Plugin X) (h : HandlerFn X .AttackEntity), R[c.index]? = some plugin ∧
          plugin.HandleAttackEntity = some h ∧
          (h e).run c.memIn = (c.memOut, c.effects)) ∧
    (∀ (i : X.Stack) (damage : Int) (m : Mem X.World (Slot X .ItemDamage)),
      ∀ c ∈ ((JoinPlugins R).HandleItemDamage i damage (State.init m)).calls,
        ∃ (plugin : Plugin X) (h : HandlerFn X .ItemDamage), R[c.index]? = some plugin ∧
          plugin.HandleItemDamage = some h ∧
          (h (i, damage)).run c.memIn = (c.memOut, c.effects)) ∧
    (∀ (i : X.Stack) (m : Mem X.World (Slot X .ItemPickup)),
      ∀ c ∈ ((JoinPlugins R).HandleItemPickup i (State.init m)).calls,
        ∃ (plugin : Plugin X) (h : HandlerFn X .ItemPickup), R[c.index]? = some plugin ∧
          plugin.HandleItemPickup = some h ∧
          (h i).run c.memIn = (c.memOut, c.effects)) ∧
    (∀ (m : Mem X.World (Slot X .ItemDrop)),
      ∀ c ∈ ((JoinPlugins R).HandleItemDrop (State.init m)).calls,
        ∃ (plugin : Plugin X) (h : HandlerFn X .ItemDrop), R[c.index]? = some plugin ∧
          plugin.HandleItemDrop = some h ∧
          (h ()).run c.memIn = (c.memOut, c.effects)) ∧
    (∀ (m : Mem X.World (Slot X .Transfer)),
      ∀ c ∈ ((JoinPlugins R).HandleTransfer (State.init m)).calls,
        ∃ (plugin : Plugin X) (h : HandlerFn X .Transfer), R[c.index]? = some plugin ∧
          plugin.HandleTransfer = some h ∧
          (h ()).run c.memIn = (c.memOut, c.effects)) ∧
    (∀ (command : X.Command) (args : Slice) (m : Mem X.World (Slot X .CommandExecution)),
      ∀ c ∈ ((JoinPlugins R).HandleCommandExecution command args (State.init m)).calls,
        ∃ (plugin : Plugin X) (h : HandlerFn X .CommandExecution), R[c.index]? = some plugin ∧
          plugin.HandleCommandExecution = some h ∧
          (h (command, args)).run c.memIn = (c.memOut, c.effects)) ∧
    (∀ (m : Mem X.World (Slot X .Quit)),
      ∀ c ∈ ((JoinPlugins R).HandleQuit (State.init m)).calls,
        ∃ (plugin : Plugin X) (h : HandlerFn X .Quit), R[c.index]? = some plugin ∧
          plugin.HandleQuit = some h ∧
          (h ()).run c.memIn = (c.memOut, c.effects)) ∧
    (∀ (i : Nat) (plugin : Plugin X) (pos : X.BlockPos) (b : X.Block)
        (m : Mem X.World (Slot X .BlockPlace)),
      R[i]? = some plugin → plugin.HandleBlockPlace = none →
      ∀ c ∈ ((JoinPlugins R).HandleBlockPlace pos b (State.init m)).calls, c.index ≠ i) ∧
    (∀ (i : Nat) (plugin : Plugin X) (pos : X.BlockPos) (b : X.Block)
        (m : Mem X.World (Slot X .BlockPick)),
      R[i]? = some plugin → plugin.HandleBlockPick = none →
      ∀ c ∈ ((JoinPlugins R).HandleBlockPick pos b (State.init m)).calls, c.index ≠ i) ∧
    (∀ (i : Nat) (plugin : Plugin X) (pos : X.BlockPos) (m : Mem X.World (Slot X .StartBreak)),
      R[i]? = some plugin → plugin.HandleStartBreak = none →
      ∀ c ∈ ((JoinPlugins R).HandleStartBreak pos (State.init m)).calls, c.index ≠ i) ∧
    (∀ (i : Nat) (plugin : Plugin X) (pos : X.BlockPos) (m : Mem X.World (Slot X .BlockBreak)),
      R[i]? = some plugin → plugin.HandleBlockBreak = none →
      ∀ c ∈ ((JoinPlugins R).HandleBlockBreak pos (State.init m)).calls, c.index ≠ i) ∧
    (∀ (i : Nat) (plugin : Plugin X) (e : X.Entity) (m : Mem X.World (Slot X .ItemUseOnEntity)),
      R[i]? = some plugin → plugin.HandleItemUseOnEntity = none →
      ∀ c ∈ ((JoinPlugins R).HandleItemUseOnEntity e (State.init m)).calls, c.index ≠ i) ∧
    (∀ (i : Nat) (plugin : Plugin X) (e : X.Entity) (m : Mem X.World (Slot X .AttackEntity)),
      R[i]? = some plugin → plugin.HandleAttackEntity = none →
      ∀ c ∈ ((JoinPlugins R).HandleAttackEntity e (State.init m)).calls, c.index ≠ i) ∧
    (∀ (i : Nat) (plugin : Plugin X) (src : X.HealingSource) (m : Mem X.World (Slot X .Heal)),
      R[i]? = some plugin → plugin.HandleHeal = none →
      ∀ c ∈ ((JoinPlugins R).HandleHeal src (State.init m)).calls, c.index ≠ i) ∧
    (∀ (i : Nat) (plugin : Plugin X) (src : X.DamageSource) (m : Mem X.World (Slot X .Hurt)),
      R[i]? = some plugin → plugin.HandleHurt = none →
      ∀ c ∈ ((JoinPlugins R).HandleHurt src (State.init m)).calls, c.index ≠ i) ∧
    (∀ (pos : X.BlockPos) (b : X.Block) (m : Mem X.World Unit),
      ((JoinPlugins [ObsPick X, ObsPlace X]).HandleBlockPlace pos b
        (State.init m)).calls.map Call.index = [1]) ∧
    (∀ (pos : X.BlockPos) (b : X.Block) (m : Mem X.World Unit),
      ((JoinPlugins [ObsPick X, ObsPlace X]).HandleBlockPick pos b
        (State.init m)).calls.map Call.index = [0]) := by
  have key : ∀ (K : EventKind) (a : Input X K) (m : Mem X.World (Slot X K)),
      ∀ c ∈ ((JoinPlugins R).dispatch K a (State.init m)).calls,
        ∃ (plugin : Plugin X) (h : HandlerFn X K), R[c.index]? = some plugin ∧
          plugin.handler K = some h ∧ (h a).run c.memIn = (c.memOut, c.effects) := by
    intro K a m c hc
    obtain ⟨hin, plugin, h, e1, e2, e3⟩ := ((JoinPlugins R).dispatch_spec K a m).2.1 c hc
    rw [hin] at e3
    exact ⟨plugin, h, e1, e2, e3⟩
  have skip : ∀ (K : EventKind) (a : Input X K) (m : Mem X.World (Slot X K)) (i : Nat)
      (plugin : Plugin X), R[i]? = some plugin → plugin.handler K = none →
      ∀ c ∈ ((JoinPlugins R).dispatch K a (State.init m)).calls, c.index ≠ i := by
    intro K a m i plugin hp hn c hc hci
    obtain ⟨q, h, e1, e2, _⟩ := key K a m c hc
    rw [hci, hp] at e1
    cases e1
    rw [hn] at e2
    cases e2
  refine ⟨key, ?_,
    fun newPos newYaw newPitch m => key .Move (newPos, newYaw, newPitch) m,
    fun pos m => key .Teleport pos m,
    fun m => key .Chat () m,
    fun from_ to_ m => key .FoodLoss (from_, to_) m,
    fun src m => key .Heal src m,
    fun src m => key .Hurt src m,
    fun src m => key .Death src m,
    fun m => key .Respawn () m,
    fun pos m => key .StartBreak pos m,
    fun pos m => key .BlockBreak pos m,
    fun pos b m => key .BlockPlace (pos, b) m,
    fun pos b m => key .BlockPick (pos, b) m,
    fun m => key .ItemUse () m,
    fun pos face clickPos m => key .ItemUseOnBlock (pos, face, clickPos) m,
    fun e m => key .ItemUseOnEntity e m,
    fun e m => key .AttackEntity e m,
    fun i damage m => key .ItemDamage (i, damage) m,
    fun i m => key .ItemPickup i m,
    fun m => key .ItemDrop () m,
    fun m => key .Transfer () m,
    fun command args m => key .CommandExecution (command, args) m,
    fun m => key .Quit () m,
    fun i plugin pos b m hp hn => skip .BlockPlace (pos, b) m i plugin hp hn,
    fun i plugin pos b m hp hn => skip .BlockPick (pos, b) m i plugin hp hn,
    fun i plugin pos m hp hn => skip .StartBreak pos m i plugin hp hn,
    fun i plugin pos m hp hn => skip .BlockBreak pos m i plugin hp hn,
    fun i plugin e m hp hn => skip .ItemUseOnEntity e m i plugin hp hn,
    fun i plugin e m hp hn => skip .AttackEntity e m i plugin hp hn,
    fun i plugin src m hp hn => skip .Heal src m i plugin hp hn,
    fun i plugin src m hp hn => skip .Hurt src m i plugin hp hn,
    fun _ _ _ => rfl, fun _ _ _ => rfl⟩
  intro K a m i plugin hp hn
  refine skip K a m i plugin hp ?_
  simpa [Plugin.implements] using hn

theorem CoordsPlugin.dispatch_command {X : Types} (D : Deps X) (command : X.Command)
    (args : Slice) (s : State X .CommandExecution) :
    (MakePlugin (CoordsPlugin D)).HandleCommandExecution command args s
      = s.call 0 (fun a => if D.Name a.1 = "coords"
          then Body.modify D.ShowCoordinates Body.ret else Body.ret) (command, args) :=
  rfl

/-- C14: the example plugin `CoordsPlugin`, registered alone through `MakePlugin`, reacts
only to command execution. A CommandExecution dispatch invokes it once; its body calls
`p.ShowCoordinates()` exactly when `command.Name()` is "coords", so the program state
the dispatch leaves is `ShowCoordinates` of the one it found in that case and the one it
found otherwise; it never cancels the context and writes no slot, for any command and
arguments; a dispatch of any other kind invokes nothing and returns the state
unchanged; `GetName` returns "Coords v0.0.1". -/
theorem coordsPlugin_reacts_only_to_commands {X : Types} (D : Deps X)
    (command : X.Command) (args : Slice) (m : Mem X.World Unit) :
    ((MakePlugin (CoordsPlugin D)).HandleCommandExecution command args
        (State.init m)).mem.world
      = (if D.Name command = "coords" then D.ShowCoordinates m.world else m.world) ∧
    (∀ h, (CoordsPlugin D).HandleCommandExecution = some h →
      (h (command, args) = Body.modify D.ShowCoordinates Body.ret ↔
        D.Name command = "coords") ∧
      (h (command, args) = Body.ret ↔ D.Name command ≠ "coords")) ∧
    ((MakePlugin (CoordsPlugin D)).HandleCommandExecution command args
        (State.init m)).calls.map Call.index = [0] ∧
    ((MakePlugin (CoordsPlugin D)).HandleCommandExecution command args
        (State.init m)).mem.ctx = m.ctx ∧
    (∀ c ∈ ((MakePlugin (CoordsPlugin D)).HandleCommandExecution command args
        (State.init m)).calls, c.cancels = false ∧ c.stores = []) ∧
    (∀ (K : EventKind) (a : Input X K) (s : State X K), K ≠ .CommandExecution →
      (MakePlugin (CoordsPlugin D)).dispatch K a s = s) ∧
    (CoordsPlugin D).GetName = "Coords v0.0.1" ∧
    (∀ (name : String) (w : Nat),
      ((MakePlugin (CoordsPlugin Deps.demo)).HandleCommandExecution name args
          (State.init (Mem.fresh () w))).mem.world ≠ w ↔ name = "coords") := by
  refine ⟨?_, ?_, ?_, ?_, ?_, ?_, rfl, ?_⟩
  · rw [CoordsPlugin.dispatch_command]
    by_cases h : D.Name command = "coords" <;> simp [State.call, State.init, h, Body.run]
  · intro h hh
    simp only [CoordsPlugin, Option.some.injEq] at hh
    subst hh
    by_cases h : D.Name command = "coords" <;> simp [h]
  · rw [CoordsPlugin.dispatch_command]
    rfl
  · rw [CoordsPlugin.dispatch_command]
    by_cases h : D.Name command = "coords" <;> simp [State.call, State.init, h, Body.run]
  · intro c hc
    rw [CoordsPlugin.dispatch_command] at hc
    simp only [State.call, State.init, List.nil_append, List.mem_singleton] at hc
    subst hc
    by_cases h : D.Name command = "coords" <;>
      simp [Call.cancels, Call.stores, h, Body.run]
  · intro K a s hK
    rw [Handler.dispatch_eq_fanout]
    refine fanout_of_none K a [CoordsPlugin D] ?_ 0 s
    intro p hp
    rw [List.mem_singleton] at hp
    subst hp
    cases K <;> first | rfl | exact absurd rfl hK
  · intro name w
    rw [CoordsPlugin.dispatch_command]
    by_cases h : name = "coords"
    · simp only [h, iff_true]
      show w + 1 ≠ w
      omega
    · simp [State.call, State.init, Mem.fresh, Deps.demo, h, Body.run]

/-- C15: dispatch distributes over registry concatenation. For every two observer
sequences `R1`, `R2`, every kind, payload and state, dispatching through
`JoinPlugins (R1 ++ R2)` leaves the same storage (slot value, cancellation state and
program state) as dispatching through `JoinPlugins R1` and then, on the result, through
`JoinPlugins R2`; its invocations are those of the first dispatch followed by those of
the second, the positions of the second moved up by the length of `R1`; and the
sequence of observers invoked is that of the first followed by that of the second. -/
theorem dispatch_distributes_over_concat {X : Types} (R1 R2 : List (Plugin X))
    (K : EventKind) (a : Input X K) (s : State X K) (m : Mem X.World (Slot X K)) :
    ((JoinPlugins (R1 ++ R2)).dispatch K a s).mem
      = ((JoinPlugins R2).dispatch K a ((JoinPlugins R1).dispatch K a s)).mem ∧
    ((JoinPlugins (R1 ++ R2)).dispatch K a (State.init m)).calls
      = ((JoinPlugins R1).dispatch K a (State.init m)).calls ++
        ((JoinPlugins R2).dispatch K a
          (State.init ((JoinPlugins R1).dispatch K a (State.init m)).mem)).calls.map
            (Call.shift R1.length) ∧
    ((JoinPlugins (R1 ++ R2)).dispatch K a (State.init m)).calls.map
        (fun c => (R1 ++ R2)[c.index]?)
      = ((JoinPlugins R1).dispatch K a (State.init m)).calls.map (fun c => R1[c.index]?) ++
        ((JoinPlugins R2).dispatch K a
          (State.init ((JoinPlugins R1).dispatch K a (State.init m)).mem)).calls.map
            (fun c => R2[c.index]?) ∧
    ((JoinPlugins (R1 ++ R2)).dispatch K a (State.init m)).mem
      = ((JoinPlugins R2).dispatch K a
          (State.init ((JoinPlugins R1).dispatch K a (State.init m)).mem)).mem := by
  have hcat : ∀ s : State X K, (JoinPlugins (R1 ++ R2)).dispatch K a s
      = fanout K a (0 + R1.length) R2 ((JoinPlugins R1).dispatch K a s) := by
    intro s
    rw [Handler.dispatch_eq_fanout, Handler.dispatch_eq_fanout]
    exact fanout_append K a R1 R2 0 s
  have h2 : ∀ s : State X K, (JoinPlugins R2).dispatch K a s = fanout K a 0 R2 s :=
    fun s => (JoinPlugins R2).dispatch_eq_fanout K a s
  refine ⟨?_, ?_, ?_, ?_⟩
  · obtain ⟨_, _, _, h⟩ := fanout_shift K a R2 R1.length 0
      ((JoinPlugins R1).dispatch K a s) ((JoinPlugins R1).dispatch K a s) rfl
    rw [hcat, h2]
    exact h
  · obtain ⟨new, e1, e2, _⟩ := fanout_shift K a R2 R1.length 0
      (State.init ((JoinPlugins R1).dispatch K a (State.init m)).mem)
      ((JoinPlugins R1).dispatch K a (State.init m)) rfl
    rw [hcat, h2, e2, e1]
    rfl
  · rw [Handler.invoked_eq_filter, Handler.invoked_eq_filter, Handler.invoked_eq_filter,
      List.filter_append, List.map_append]
  · obtain ⟨_, _, _, h⟩ := fanout_shift K a R2 R1.length 0
      (State.init ((JoinPlugins R1).dispatch K a (State.init m)).mem)
      ((JoinPlugins R1).dispatch K a (State.init m)) rfl
    rw [hcat, h2]
    exact h

/-- C16: `MakePlugin` is the singleton case of `JoinPlugins`. For every observer `p`,
every kind, payload and state, dispatching through `MakePlugin p` is dispatching
through `JoinPlugins [p]`: if the type of `p` has the handler method of the kind, that
method is called once, at position 0, and otherwise nothing is called and the state is
returned unchanged. -/
theorem makePlugin_is_singleton_joinPlugins {X : Types} (p : Plugin X) (K : EventKind)
    (a : Input X K) (s : State X K) :
    MakePlugin p = JoinPlugins [p] ∧
    (MakePlugin p).dispatch K a s = (JoinPlugins [p]).dispatch K a s ∧
    (MakePlugin p).dispatch K a s
      = (match p.handler K with
         | some h => s.call 0 h a
         | none => s) ∧
    ((MakePlugin p).dispatch K a (State.init s.mem)).calls.map Call.index
      = (if p.implements K = true then [0] else []) := by
  have h : (MakePlugin p).dispatch K a s
      = (match p.handler K with
         | some h => s.call 0 h a
         | none => s) := by
    rw [Handler.dispatch_eq_fanout]
    rfl
  refine ⟨rfl, rfl, h, ?_⟩
  rw [Handler.dispatch_eq_fanout]
  cases hp : p.handler K <;> simp [MakePlugin, fanout, Plugin.implements, hp, State.init,
    State.call]

end Dragonfly
